import Mathlib

/-!
Verification development for the SwishPredict scraping pipeline
(`src/data_pipeline_services/data_ingestion/scraper.py` together with
`src/data_pipeline_services/data_ingestion/config/variables.py`).

The Python source is shallowly embedded: pure string manipulation is
translated to executable Lean functions over `List Char`, the network is
represented by attaching each page's fetch outcome to its URL, exceptions
become `Except`/abort flags, and the side effects the specification talks
about (network requests, pacing sleeps, error reports) are reified as
explicit event and report traces.
-/

namespace SwishPredict

/-! ## Python string primitives

Character-list implementations of the Python string operations used by
`scraper.py` (`split`, `strip`, `in`, slicing, `int(...)`, `str(...)`).
All recursions are structural so that every definition evaluates by
`decide`/`rfl`. -/

/-- ASCII digit test (Python's `str.isdigit` restricted to ASCII input,
which is the only input the scraper meets). -/
def isD (c : Char) : Bool := '0' ≤ c && c ≤ '9'

/-- Numeric value of an ASCII digit character. -/
def digitVal (c : Char) : Nat := c.toNat - 48

/-- ASCII digit character of a value `< 10`. -/
def digitChar (n : Nat) : Char := Char.ofNat (48 + n)

/-- Python `str.strip` whitespace test (ASCII whitespace). -/
def isWS (c : Char) : Bool :=
  c = ' ' || c = '\t' || c = '\n' || c = '\r' || c = '\x0b' || c = '\x0c'

/-- Python `s.strip()` on a character list. -/
def trimChars (cs : List Char) : List Char :=
  ((cs.dropWhile isWS).reverse.dropWhile isWS).reverse

/-- Python `s.strip()`. -/
def pyStrip (s : String) : String := String.mk (trimChars s.data)

/-- Does `cs` start with `pat`? -/
def startsWithB : List Char → List Char → Bool
  | [], _ => true
  | _ :: _, [] => false
  | p :: ps, c :: cs => p = c && startsWithB ps cs

/-- Python's substring test `pat in s`. -/
def hasSubstr (pat : List Char) : List Char → Bool
  | [] => startsWithB pat []
  | c :: rest => startsWithB pat (c :: rest) || hasSubstr pat rest

/-- Worker for `splitOnPat`, with fuel to keep the recursion structural.
`acc` holds the current (reversed) piece. -/
def splitOnPatF (pat : List Char) : Nat → List Char → List Char → List (List Char)
  | 0, cs, acc => [acc.reverse ++ cs]
  | fuel + 1, cs, acc =>
    match cs with
    | [] => [acc.reverse]
    | c :: rest =>
      if startsWithB pat cs then
        acc.reverse :: splitOnPatF pat fuel (List.drop pat.length cs) []
      else
        splitOnPatF pat fuel rest (c :: acc)

/-- Python `s.split(pat)` for a non-empty separator `pat`
(an empty separator raises in Python and never occurs in the source). -/
def splitOnPat (pat : List Char) (cs : List Char) : List (List Char) :=
  if pat.isEmpty then [cs] else splitOnPatF pat cs.length cs []

/-- Python `s[-n:]`: the last `n` characters (the whole string if shorter). -/
def takeLast (n : Nat) (cs : List Char) : List Char := cs.drop (cs.length - n)

/-- Worker for `parseNatU`: continue the digit run after at least one
digit has been read, allowing single underscores between digits. -/
def parseNatUGo (acc : Nat) : List Char → Option Nat
  | [] => some acc
  | c :: rest =>
    if c = '_' then
      match rest with
      | c2 :: rest2 =>
        if isD c2 then parseNatUGo (acc * 10 + digitVal c2) rest2 else none
      | [] => none
    else if isD c then parseNatUGo (acc * 10 + digitVal c) rest else none

/-- Digit run of Python `int(...)`: non-empty ASCII digits with single
underscores allowed between digits (PEP 515). -/
def parseNatU : List Char → Option Nat
  | [] => none
  | c :: rest => if isD c then parseNatUGo (digitVal c) rest else none

/-- Python `int(s)`: optional surrounding whitespace, optional sign,
then a digit run. -/
def pyIntChars (cs : List Char) : Option Int :=
  match trimChars cs with
  | [] => none
  | c :: rest =>
    if c = '+' then (parseNatU rest).map Int.ofNat
    else if c = '-' then (parseNatU rest).map (fun n => -(Int.ofNat n))
    else (parseNatU (c :: rest)).map Int.ofNat

/-- Decimal digits of a natural number (fuel-driven so it stays structural). -/
def natDigits : Nat → Nat → List Char
  | 0, _ => []
  | fuel + 1, n =>
    if n < 10 then [digitChar n] else natDigits fuel (n / 10) ++ [digitChar (n % 10)]

/-- Python `str(n)` for a natural number. -/
def natToChars (n : Nat) : List Char := natDigits (n + 1) n

/-- Python `str(i)` for an integer. -/
def intToChars (i : Int) : List Char :=
  if i < 0 then '-' :: natToChars i.natAbs else natToChars i.toNat

/-! ## Calendar dates

`datetime.strptime` for the two formats the scraper uses (`%Y%m%d` for the
`csk` attribute, `%Y-%m-%d` for the date window), `datetime` comparison,
calendar validation, and `strftime('%Y-%m-%d')` formatting.

Python's `_strptime` matches `%Y` as exactly four digits, `%m` with the
regex alternation `1[0-2]|0[1-9]|[1-9]` and `%d` with
`3[01]|[12]\d|0[1-9]|[1-9]`, backtracking over the alternatives, requires
the whole string to be consumed, and only then builds the `datetime`,
which raises if the day is out of range for the month (no re-matching).
The alternation lists below are in Python's regex order. -/

/-- A calendar date as `datetime.strptime` produces it. -/
structure Date where
  y : Nat
  m : Nat
  d : Nat
deriving DecidableEq, Repr

/-- Comparison key: for parsed dates (`m ≤ 12`, `d ≤ 31`) ordering by this
key agrees with `datetime`'s field-lexicographic ordering. -/
def Date.key (dt : Date) : Nat := dt.y * 10000 + dt.m * 100 + dt.d

/-- The `%m` alternatives `1[0-2]|0[1-9]|[1-9]`, in regex order, each with
the remaining input. -/
def monthAlts (cs : List Char) : List (Nat × List Char) :=
  (match cs with
   | '1' :: c :: rest => if '0' ≤ c && c ≤ '2' then [(10 + digitVal c, rest)] else []
   | _ => []) ++
  (match cs with
   | '0' :: c :: rest => if '1' ≤ c && c ≤ '9' then [(digitVal c, rest)] else []
   | _ => []) ++
  (match cs with
   | c :: rest => if '1' ≤ c && c ≤ '9' then [(digitVal c, rest)] else []
   | _ => [])

/-- The `%d` alternatives `3[01]|[12]\d|0[1-9]|[1-9]`, in regex order. -/
def dayAlts (cs : List Char) : List (Nat × List Char) :=
  (match cs with
   | '3' :: c :: rest => if c = '0' || c = '1' then [(30 + digitVal c, rest)] else []
   | _ => []) ++
  (match cs with
   | c :: c2 :: rest =>
     if (c = '1' || c = '2') && isD c2 then [(digitVal c * 10 + digitVal c2, rest)] else []
   | _ => []) ++
  (match cs with
   | '0' :: c :: rest => if '1' ≤ c && c ≤ '9' then [(digitVal c, rest)] else []
   | _ => []) ++
  (match cs with
   | c :: rest => if '1' ≤ c && c ≤ '9' then [(digitVal c, rest)] else []
   | _ => [])

/-- Gregorian leap year, as `datetime` uses it. -/
def isLeap (y : Nat) : Bool := (y % 4 = 0 && y % 100 ≠ 0) || y % 400 = 0

/-- Days in a month, as `datetime` uses it. -/
def daysInMonth (y m : Nat) : Nat :=
  if m = 2 then (if isLeap y then 29 else 28)
  else if m = 4 || m = 6 || m = 9 || m = 11 then 30
  else 31

/-- The `datetime(y, m, d)` constructor's validity check
(`MINYEAR = 1`; month and day ranges are already enforced by the regex). -/
def validDate (dt : Date) : Bool :=
  1 ≤ dt.y && 1 ≤ dt.d && dt.d ≤ daysInMonth dt.y dt.m

/-- Four digits of `%Y`, or `none`. -/
def yearOf (cs : List Char) : Option (Nat × List Char) :=
  match cs with
  | y1 :: y2 :: y3 :: y4 :: rest =>
    if isD y1 && isD y2 && isD y3 && isD y4 then
      some (digitVal y1 * 1000 + digitVal y2 * 100 + digitVal y3 * 10 + digitVal y4, rest)
    else none
  | _ => none

/-- `datetime.strptime(s, '%Y%m%d')` on a character list: first full regex
match in backtracking order, then calendar validation. -/
def parseYMDChars (cs : List Char) : Option Date :=
  match yearOf cs with
  | none => none
  | some (y, rest) =>
    let cands := (monthAlts rest).flatMap (fun p =>
      (dayAlts p.2).filterMap (fun q =>
        if q.2.isEmpty then some (Date.mk y p.1 q.1) else none))
    match cands.head? with
    | some dt => if validDate dt then some dt else none
    | none => none

/-- `datetime.strptime(csk[:8], '%Y%m%d')`, as `get_box_score_links`
applies it to a `csk` attribute value. -/
def parseYMD8 (csk : String) : Option Date := parseYMDChars (csk.data.take 8)

/-- `datetime.strptime(s, '%Y-%m-%d')` on a character list. -/
def parseDashChars (cs : List Char) : Option Date :=
  match yearOf cs with
  | none => none
  | some (y, rest) =>
    match rest with
    | '-' :: rest2 =>
      let cands := (monthAlts rest2).flatMap (fun p =>
        match p.2 with
        | '-' :: rest3 =>
          (dayAlts rest3).filterMap (fun q =>
            if q.2.isEmpty then some (Date.mk y p.1 q.1) else none)
        | _ => [])
      match cands.head? with
      | some dt => if validDate dt then some dt else none
      | none => none
    | _ => none

/-- `datetime.strptime(s, '%Y-%m-%d')`. -/
def parseDashDate (s : String) : Option Date := parseDashChars s.data

/-- Two-digit zero-padded field of `strftime`. -/
def pad2 (n : Nat) : List Char :=
  if n < 10 then ['0', digitChar n] else [digitChar (n / 10), digitChar (n % 10)]

/-- Four-digit zero-padded year of `strftime('%Y')`. -/
def pad4 (n : Nat) : List Char :=
  (List.replicate (4 - (natToChars n).length) '0') ++ natToChars n

/-- `dt.strftime('%Y-%m-%d')`. -/
def formatDate (dt : Date) : String :=
  String.mk (pad4 dt.y ++ '-' :: (pad2 dt.m ++ '-' :: pad2 dt.d))

/-! ## `config/variables.py` -/

/-- `BASE_URL` from `variables.py`. -/
def BASE_URL : String := "https://www.basketball-reference.com"

/-- `TEAM_ABBREVIATIONS` from `variables.py`, as an association list in
source order. -/
def TEAM_ABBREVIATIONS : List (String × String) :=
  [("ATL", "Atlanta Hawks"), ("BOS", "Boston Celtics"), ("BRK", "Brooklyn Nets"),
   ("CHO", "Charlotte Hornets"), ("CHI", "Chicago Bulls"), ("CLE", "Cleveland Cavaliers"),
   ("DAL", "Dallas Mavericks"), ("DEN", "Denver Nuggets"), ("DET", "Detroit Pistons"),
   ("GSW", "Golden State Warriors"), ("HOU", "Houston Rockets"), ("IND", "Indiana Pacers"),
   ("LAC", "Los Angeles Clippers"), ("LAL", "Los Angeles Lakers"), ("MEM", "Memphis Grizzlies"),
   ("MIA", "Miami Heat"), ("MIL", "Milwaukee Bucks"), ("MIN", "Minnesota Timberwolves"),
   ("NOP", "New Orleans Pelicans"), ("NYK", "New York Knicks"), ("OKC", "Oklahoma City Thunder"),
   ("ORL", "Orlando Magic"), ("PHI", "Philadelphia 76ers"), ("PHO", "Phoenix Suns"),
   ("POR", "Portland Trail Blazers"), ("SAC", "Sacramento Kings"), ("SAS", "San Antonio Spurs"),
   ("TOR", "Toronto Raptors"), ("UTA", "Utah Jazz"), ("WAS", "Washington Wizards")]

/-- `MONTH_START_END_DATES` from `variables.py`. -/
def MONTH_START_END_DATES : List (String × String × String) :=
  [("january", "01-01", "01-31"), ("february", "02-01", "02-28"),
   ("march", "03-01", "03-31"), ("april", "04-01", "04-30"),
   ("may", "05-01", "05-31"), ("june", "06-01", "06-30"),
   ("july", "07-01", "07-31"), ("august", "08-01", "08-31"),
   ("september", "09-01", "09-30"), ("october", "10-01", "10-31"),
   ("november", "11-01", "11-30"), ("december", "12-01", "12-31")]

/-! ## `get_month_links`: season resolution (scraper.py lines 30-41)

The claims about `get_month_links` concern what happens before and at the
first network request, so the embedding models the function up to the
point where `requests.get(start_url)` is issued. -/

/-- The season-label validation of `get_month_links` lines 30-37:
`season.split('-')` must unpack into exactly two parts, `int(start_year)`
must succeed, and the suffix must be two ASCII digits.  Returns the parsed
start year and the suffix, or `none` for the `except` branch (which prints
a diagnostic and returns `(None, None)`). -/
def seasonSplit (season : String) : Option (Int × String) :=
  match splitOnPat ['-'] season.data with
  | [a, b] =>
    match pyIntChars a with
    | some sy => if b.length = 2 && b.all isD then some (sy, String.mk b) else none
    | none => none
  | _ => none

/-- Line 39: `end_year_full = start_year_full + 1 if end_year == '00' else
int(str(start_year_full)[:2] + end_year)`.  The splice always parses for
inputs that passed validation, so the `getD` default is unreachable. -/
def endYearFull (start_year_full : Int) (end_year : String) : Int :=
  if end_year = "00" then start_year_full + 1
  else (pyIntChars ((intToChars start_year_full).take 2 ++ end_year.data)).getD 0

/-- Line 41: the schedule-index URL built from the resolved end year. -/
def startUrl (end_year_full : Int) : String :=
  BASE_URL ++ "/leagues/NBA_" ++ String.mk (intToChars end_year_full) ++ "_games.html"

/-- What `get_month_links` does before its first network request:
either the `except` branch (print the invalid-format diagnostic and
return `(None, None)` — no exception is raised and nothing is fetched),
or proceed to issue `requests.get` on the resolved schedule-index URL. -/
inductive MonthLinksStart
  /-- Lines 36-37: `print(...)` then `return None, None`. -/
  | invalidSeason
  /-- Line 45: `requests.get(start_url)` is issued with the resolved years. -/
  | fetches (start_url : String) (start_year_full end_year_full : Int)
deriving DecidableEq, Repr

/-- `get_month_links` up to its first network request
(scraper.py lines 30-45). -/
def get_month_links (season : String) : MonthLinksStart :=
  match seasonSplit season with
  | none => .invalidSeason
  | some (sy, suffix) => .fetches (startUrl (endYearFull sy suffix)) sy (endYearFull sy suffix)

/-- The season-label contract as the spec states it
(`<4-digit-year>-<2-digit-suffix>`); declared for comparison with the
looser validation the source performs. -/
def specSeasonFormat (s : String) : Bool :=
  match splitOnPat ['-'] s.data with
  | [a, b] => a.length = 4 && a.all isD && b.length = 2 && b.all isD
  | _ => false

/-! ## Traces, reports, and the modelled `utils` module

The observable side effects the claims talk about are reified: every
`requests.get` becomes a `fetch` event, every `time.sleep(random.uniform(lo, hi))`
becomes a `sleep` event carrying the bounds passed to `random.uniform`,
and every invocation of an error handler becomes a `Report`. -/

/-- An observable side effect of a pipeline stage, in execution order. -/
inductive Event
  /-- `requests.get(url)` was issued (successfully or not). -/
  | fetch (url : String)
  /-- `time.sleep(random.uniform(lo, hi))` was executed. -/
  | sleep (lo hi : ℚ)
deriving DecidableEq, Repr

/-- Modelled from the spec: the error handlers `handle_http_error` and
`handle_general_error` live in the repository's `utils` module, which is
not under `src/`; spec §4.6 states that both log the failure with its
context and that callers at the month/box-score stages then continue with
the next page, so they are modelled as producing a report value and
returning. -/
inductive Report
  /-- `handle_http_error(response)`: a non-success HTTP status. -/
  | httpError (status : Nat) (url : String)
  /-- `handle_general_error(e, url)`: any other exception. -/
  | fetchError (url : String)
deriving DecidableEq, Repr

/-- `random.uniform(0.5, 2)` bounds of the pacing sleep after each month
page (scraper.py line 127). -/
def month_page_delay : ℚ × ℚ := (1 / 2, 2)

/-- `random.uniform(3, 7)` bounds of the pacing sleep between box score
page fetches (scraper.py line 211). -/
def box_page_delay : ℚ × ℚ := (3, 7)

/-! ## `get_box_score_links` (scraper.py lines 66-134) -/

/-- An `<a>` element inside a box-score cell; `href` is its `href`
attribute when present. -/
structure Anchor where
  href : Option String
deriving DecidableEq, Repr

/-- A `<tr>` of a month schedule table, as the scraper reads it:
`date_cell` is `row.find('th', {'data-stat': 'date_game'})` (outer `none`
when the cell is missing) with its `csk` attribute (inner `none` when the
attribute is missing); `box_cell` is
`row.find('td', {'data-stat': 'box_score_text'})` with the anchors it
contains in document order. -/
structure ScheduleRow where
  date_cell : Option (Option String)
  box_cell : Option (List Anchor)
deriving DecidableEq, Repr

/-- The outcome the network produces for one page URL. -/
inductive PageFetch
  /-- 2xx response whose parsed document holds these table rows. -/
  | ok (rows : List ScheduleRow)
  /-- `raise_for_status` raises `requests.exceptions.HTTPError`. -/
  | httpErr (status : Nat)
  /-- `requests.get` (or parsing the response) raises some other exception. -/
  | exn
deriving DecidableEq, Repr

/-- One entry of `month_link_list` — a `(month, page)` tuple — together
with what the network returns for its URL. -/
structure MonthPage where
  month : String
  url : String
  fetch : PageFetch
deriving DecidableEq, Repr

/-- One iteration of the row loop of `get_box_score_links`
(lines 109-122): `.ok none` is `continue` (the row is skipped silently),
`.ok (some (url, date))` appends to `page_link_list`/`page_date_list`,
and `.error ()` is the exception path — `datetime.strptime` failing on
`csk[:8]` (line 113), or the `['href']` lookup on
`box_score_cell.find('a')` (the cell's *first* anchor, line 120) raising
`KeyError` — which jumps to the `except` handler. -/
def rowStep (sd ed : Date) (r : ScheduleRow) : Except Unit (Option (String × String)) :=
  match r.date_cell with
  | some (some csk) =>
    match parseYMD8 csk with
    | none => .error ()
    | some gd =>
      if sd.key ≤ gd.key && gd.key ≤ ed.key then
        match r.box_cell with
        | some anchors =>
          match anchors.find? (fun a => a.href.isSome) with
          | some _ =>
            match anchors with
            | a0 :: _ =>
              match a0.href with
              | some h => .ok (some (BASE_URL ++ h, formatDate gd))
              | none => .error ()
            | [] => .ok none
          | none => .ok none
        | none => .ok none
      else .ok none
  | _ => .ok none

/-- The row loop of `get_box_score_links` (lines 109-122) over one page's
rows: builds `page_link_list` and `page_date_list` in row order; an
exception anywhere in the loop discards both lists for the page. -/
def collectPageLinks (sd ed : Date) : List ScheduleRow → Except Unit (List String × List String)
  | [] => .ok ([], [])
  | r :: rest =>
    match rowStep sd ed r with
    | .error e => .error e
    | .ok contrib =>
      match collectPageLinks sd ed rest with
      | .error e => .error e
      | .ok (ls, ds) =>
        match contrib with
        | some (u, dt) => .ok (u :: ls, dt :: ds)
        | none => .ok (ls, ds)

/-- The per-row contribution of a schedule row when its page parses
cleanly: `some (url, formatted date)` exactly when the row has a `csk`
date attribute whose first 8 characters parse, the date lies inside the
window, and the box-score cell holds an anchor with an `href`. -/
def rowLink (sd ed : Date) (r : ScheduleRow) : Option (String × String) :=
  match r.date_cell with
  | some (some csk) =>
    match parseYMD8 csk with
    | none => none
    | some gd =>
      if sd.key ≤ gd.key && gd.key ≤ ed.key then
        match r.box_cell with
        | some anchors =>
          match anchors.find? (fun a => a.href.isSome) with
          | some a => a.href.map (fun h => (BASE_URL ++ h, formatDate gd))
          | none => none
        | none => none
      else none
  | _ => none

/-- A schedule row whose date cell carries a `csk` attribute whose first 8
characters do not parse as `%Y%m%d` — the input on which line 113 raises. -/
def badCsk (r : ScheduleRow) : Prop :=
  ∃ csk, r.date_cell = some (some csk) ∧ parseYMD8 csk = none

/-- Everything `get_box_score_links` accumulates over its page loop. -/
structure LoopOut where
  box_link_array : List (List String)
  all_dates : List (List String)
  events : List Event
  reports : List Report
deriving DecidableEq, Repr

/-- The page loop of `get_box_score_links` (lines 100-132): fetch each
page; on success run the row loop, append the page's lists only when
non-empty, and sleep; an HTTP error, fetch exception, or row-loop
exception is handed to the error handler (reported) and the loop moves to
the next page, skipping that page's append and sleep. -/
def boxScoreLoop (sd ed : Date) : List MonthPage → LoopOut
  | [] => ⟨[], [], [], []⟩
  | p :: rest =>
    let out := boxScoreLoop sd ed rest
    match p.fetch with
    | .ok rows =>
      match collectPageLinks sd ed rows with
      | .ok (ls, ds) =>
        if ls.isEmpty then
          ⟨out.box_link_array, out.all_dates,
           .fetch p.url :: .sleep month_page_delay.1 month_page_delay.2 :: out.events,
           out.reports⟩
        else
          ⟨ls :: out.box_link_array, ds :: out.all_dates,
           .fetch p.url :: .sleep month_page_delay.1 month_page_delay.2 :: out.events,
           out.reports⟩
      | .error _ =>
        ⟨out.box_link_array, out.all_dates, .fetch p.url :: out.events,
         .fetchError p.url :: out.reports⟩
    | .httpErr s =>
      ⟨out.box_link_array, out.all_dates, .fetch p.url :: out.events,
       .httpError s p.url :: out.reports⟩
    | .exn =>
      ⟨out.box_link_array, out.all_dates, .fetch p.url :: out.events,
       .fetchError p.url :: out.reports⟩

/-- The report a failing page produces in the loop. -/
def failureReport (p : MonthPage) : Report :=
  match p.fetch with
  | .httpErr s => .httpError s p.url
  | _ => .fetchError p.url

/-- The group a page contributes to the output arrays: its row-loop lists
when the page fetched, parsed cleanly, and produced at least one link. -/
def pageGroup (sd ed : Date) (p : MonthPage) : Option (List String × List String) :=
  match p.fetch with
  | .ok rows =>
    match collectPageLinks sd ed rows with
    | .ok (ls, ds) => if ls.isEmpty then none else some (ls, ds)
    | .error _ => none
  | _ => none

/-- Parse one `'MM-DD'` entry of `MONTH_START_END_DATES`. -/
def parseMonthDay (s : String) : Nat × Nat :=
  match s.data with
  | [m1, m2, '-', d1, d2] =>
    (digitVal m1 * 10 + digitVal m2, digitVal d1 * 10 + digitVal d2)
  | _ => (0, 0)

/-- Modelled from the spec: the season year a month page belongs to —
spec §4.3 states months October-December belong to `start_year` and
January-June to `end_year`. -/
def monthSeasonYear (month : String) (start_year end_year : Int) : Int :=
  if month = "october" || month = "november" || month = "december" then start_year
  else end_year

/-- Modelled from the spec: does the calendar month of a month page
intersect the inclusive date window?  Month boundaries come from the
`MONTH_START_END_DATES` table in `variables.py`. -/
def monthIntersects (month : String) (sd ed : Date) (start_year end_year : Int) : Bool :=
  match MONTH_START_END_DATES.lookup month with
  | none => false
  | some (lo, hi) =>
    let y := (monthSeasonYear month start_year end_year).toNat
    let mLo := Date.mk y (parseMonthDay lo).1 (parseMonthDay lo).2
    let mHi := Date.mk y (parseMonthDay hi).1 (parseMonthDay hi).2
    mLo.key ≤ ed.key && sd.key ≤ mHi.key

/-- Modelled from the spec: `filter_relevant_months` lives in the
repository's `utils` module, which is not under `src/`; spec §4.3 states
it produces the ordered subsequence of month links whose calendar month
(placed in the season year per the rollover rule) intersects the
inclusive window. -/
def filter_relevant_months (mll : List MonthPage) (sd ed : Date)
    (start_year end_year : Int) : List MonthPage :=
  mll.filter (fun p => monthIntersects p.month sd ed start_year end_year)

/-- The result of `get_box_score_links`: either the `ValueError` the
function raises (date parsing or an inverted window), or the two parallel
arrays; plus the event and report traces. -/
structure BoxLinksRun where
  result : Except String (List (List String) × List (List String))
  events : List Event
  reports : List Report
deriving Repr

/-- `get_box_score_links` (scraper.py lines 66-134): parse the window
bounds, raise on an inverted window before anything is fetched, filter the
relevant month pages, then run the page loop. -/
def get_box_score_links (month_link_list : List MonthPage)
    (start_date end_date : String) (start_year end_year : Int) : BoxLinksRun :=
  match parseDashDate start_date with
  | none => ⟨.error "time data does not match format", [], []⟩
  | some sd =>
    match parseDashDate end_date with
    | none => ⟨.error "time data does not match format", [], []⟩
    | some ed =>
      if ed.key < sd.key then
        ⟨.error "Start date cannot be after end date.", [], []⟩
      else
        let out := boxScoreLoop sd ed (filter_relevant_months month_link_list sd ed start_year end_year)
        ⟨.ok (out.box_link_array, out.all_dates), out.events, out.reports⟩

/-! ## `extract_player_data` (scraper.py lines 138-213) -/

/-- `df_columns` (scraper.py lines 151-155): the declared output schema. -/
def df_columns : List String :=
  ["Date", "Name", "Team", "Opponent", "MP", "FG", "FGA", "FG%", "3P", "3PA",
   "3P%", "FT", "FTA", "FT%", "ORB", "DRB", "TRB", "AST", "STL", "BLK",
   "TOV", "PF", "PTS", "GmSc", "+-", "GameLink", "Home"]

/-- Modelled from the spec: `normalize_name` lives in the repository's
`utils` module, which is not under `src/`; the spec's glossary describes
it as canonicalizing a player's display name (trimming whitespace,
standardizing punctuation/diacritics).  No claim depends on its internals,
so it is modelled as whitespace trimming. -/
def normalize_name (s : String) : String := pyStrip s

/-- A `<td>` of a player row: its `data-stat` attribute and its text. -/
structure Cell where
  dataStat : Option String
  text : String
deriving DecidableEq, Repr

/-- A `<tr>` of a team table's `tbody`: `th` is
`row.find('th')`'s text (`none` when the row has no `th`, on which
`.text` raises), and `cells` are the row's `<td>` elements in document
order. -/
structure PlayerRow where
  th : Option String
  cells : List Cell
deriving DecidableEq, Repr

/-- One table matched by `id=lambda x: x and x.endswith('-game-basic')`:
its `<caption>` text when present and its `tbody` rows when present
(a missing caption or tbody raises `AttributeError`). -/
structure TeamTable where
  caption : Option String
  tbody : Option (List PlayerRow)
deriving DecidableEq, Repr

/-- The outcome the network produces for one box score URL: on success,
the tables `find_all` matches on the decoded document. -/
inductive BoxFetch
  | ok (tables : List TeamTable)
  | httpErr (status : Nat)
  | exn
deriving DecidableEq, Repr

/-- One box score link together with what the network returns for it. -/
structure BoxPage where
  link : String
  fetch : BoxFetch
deriving DecidableEq, Repr

/-- Line 175/177: `caption.text.split(' Basic and Advanced Stats Table')[0].strip()`. -/
def captionTeam (cap : String) : String :=
  String.mk (trimChars ((splitOnPat " Basic and Advanced Stats Table".data cap.data).headD []))

/-- Lines 190-191: the first `<td>` with `data-stat='reason'`, if any. -/
def dnpCell (r : PlayerRow) : Option Cell :=
  r.cells.find? (fun c => c.dataStat == some "reason")

/-- Line 191: `dnp and 'Did Not Play' in dnp.text`. -/
def isDNP (r : PlayerRow) : Bool :=
  match dnpCell r with
  | some c => hasSubstr "Did Not Play".data c.text.data
  | none => false

/-- Lines 190-195: the statistical fields of one row — `DNP` sentinels for
a "Did Not Play" row, otherwise every `<td>`'s stripped text with `'0'`
substituted for an empty string (`td.text.strip() or '0'`). -/
def statFields (r : PlayerRow) : List String :=
  if isDNP r then List.replicate (df_columns.length - 6) "DNP"
  else r.cells.map (fun td => if pyStrip td.text = "" then "0" else pyStrip td.text)

/-- Lines 186-198: the full `stats` list built for one player row. -/
def buildStats (date link team_name opponent_name : String) (is_home : Bool)
    (player_name : String) (r : PlayerRow) : List String :=
  [date, player_name, team_name, opponent_name] ++ statFields r ++
    [link, if is_home then "1" else "0"]

/-- What lines 183-204 do with one player row. -/
inductive RowOutcome
  /-- Line 184-185: `row.find('th').text in ['Team Totals', 'Reserves']` — skipped. -/
  | aggregateSkipped
  /-- Lines 200-202: the shape check passed and the row is appended. -/
  | emitted (stats : List String)
  /-- Lines 203-204: wrong field count — `print('Skipping incomplete data …')`. -/
  | droppedIncomplete (player_name : String)
deriving DecidableEq, Repr

/-- Lines 183-204 for one player row whose `th` exists. -/
def rowOutcome (date link team_name opponent_name : String) (is_home : Bool)
    (th : String) (r : PlayerRow) : RowOutcome :=
  if th = "Team Totals" || th = "Reserves" then .aggregateSkipped
  else
    let player_name := normalize_name (pyStrip th)
    let stats := buildStats date link team_name opponent_name is_home player_name r
    if stats.length = df_columns.length then .emitted stats
    else .droppedIncomplete player_name

/-- The row loop over one table's `tbody` rows: emitted rows in order,
plus an abort flag for the `AttributeError` a missing `th` raises (rows
already appended to the accumulating frame are kept). -/
def processRows (date link team_name opponent_name : String) (is_home : Bool) :
    List PlayerRow → List (List String) × Bool
  | [] => ([], false)
  | r :: rest =>
    match r.th with
    | none => ([], true)
    | some th =>
      match rowOutcome date link team_name opponent_name is_home th r with
      | .emitted s =>
        let out := processRows date link team_name opponent_name is_home rest
        (s :: out.1, out.2)
      | _ => processRows date link team_name opponent_name is_home rest

/-- The table loop (lines 176-204): per table, re-derive the team name
from the caption, pick the opponent as `team_names[1] if team_names[0] ==
team_name else team_names[0]` (an out-of-range index raises and aborts the
page, keeping rows already appended), compare against the home team, and
run the row loop. -/
def processTables (date link : String) (home_team : Option String)
    (team_names : List String) : List TeamTable → List (List String) × Bool
  | [] => ([], false)
  | t :: rest =>
    match t.caption with
    | none => ([], true)
    | some cap =>
      let team_name := captionTeam cap
      match team_names with
      | [] => ([], true)
      | n0 :: ns =>
        let oppo : Option String := if n0 = team_name then ns.head? else some n0
        match oppo with
        | none => ([], true)
        | some opponent_name =>
          match t.tbody with
          | none => ([], true)
          | some rows =>
            let is_home := home_team == some team_name
            let out := processRows date link team_name opponent_name is_home rows
            if out.2 then (out.1, true)
            else
              let more := processTables date link home_team team_names rest
              (out.1 ++ more.1, more.2)

/-- Lines 171-172: the home-team abbreviation is the last three characters
of the URL's filename stem, resolved through `TEAM_ABBREVIATIONS.get`. -/
def homeTeamOf (link : String) : Option String :=
  TEAM_ABBREVIATIONS.lookup
    (String.mk (takeLast 3 ((splitOnPat ['.']
      ((splitOnPat ['/'] link.data).getLastD [])).headD [])))

/-- Lines 171-204 for one successfully fetched box score page: resolve the
home team, build `team_names` (a missing caption raises before any row of
the page is appended), then run the table loop.  Returns the rows appended
and whether the page aborted with an exception. -/
def processBoxPage (date : String) (link : String) (tables : List TeamTable) :
    List (List String) × Bool :=
  match tables.mapM (fun t => t.caption.map captionTeam) with
  | none => ([], true)
  | some team_names => processTables date link (homeTeamOf link) team_names tables

/-- One iteration of the inner link loop (lines 162-209): fetch the page,
process it on success, report on failure. -/
def processLink (date : String) (p : BoxPage) : List (List String) × List Report :=
  match p.fetch with
  | .ok tables =>
    let out := processBoxPage date p.link tables
    (out.1, if out.2 then [.fetchError p.link] else [])
  | .httpErr s => ([], [.httpError s p.link])
  | .exn => ([], [.fetchError p.link])

/-- Everything `extract_player_data` accumulates. -/
structure ExtractOut where
  rows : List (List String)
  events : List Event
  reports : List Report
deriving DecidableEq, Repr

/-- The inner loop over `zip(links, dates)`: each link is fetched and the
pacing sleep (line 211, outside the `try`) always runs afterwards. -/
def extractBatch : List BoxPage → List String → ExtractOut
  | p :: ps, d :: ds =>
    let here := processLink d p
    let out := extractBatch ps ds
    ⟨here.1 ++ out.rows,
     .fetch p.link :: .sleep box_page_delay.1 box_page_delay.2 :: out.events,
     here.2 ++ out.reports⟩
  | _, _ => ⟨[], [], []⟩

/-- `extract_player_data` (scraper.py lines 138-213) over
`zip(box_links, all_dates)`. -/
def extract_player_data : List (List BoxPage) → List (List String) → ExtractOut
  | g :: gs, d :: ds =>
    let here := extractBatch g d
    let there := extract_player_data gs ds
    ⟨here.rows ++ there.rows, here.events ++ there.events, here.reports ++ there.reports⟩
  | _, _ => ⟨[], [], []⟩

/-- The label `YYYY-ZZ` of a season starting in year `sy` whose two-digit
suffix is the zero-padded last two digits of `sy + 1` — the family of
labels on which the spec's `end_year = start_year + 1` resolution is
expected to hold. -/
def consecutiveSeasonLabel (sy : Nat) : String :=
  String.mk [digitChar (sy / 1000 % 10), digitChar (sy / 100 % 10),
             digitChar (sy / 10 % 10), digitChar (sy % 10), '-',
             digitChar ((sy + 1) / 10 % 10), digitChar ((sy + 1) % 10)]

/-! ## Concrete fixtures used by witnesses and counterexamples -/

/-- A schedule row whose `csk` prefix is not a date: line 113 raises on it. -/
def fixtureBadRow : ScheduleRow := ⟨some (some "notadate"), none⟩

/-- A schedule row meeting all three contribution conditions for the
October 2021 window. -/
def fixtureGoodRow : ScheduleRow :=
  ⟨some (some "202110190MIL"), some [⟨some "/boxscores/202110190MIL.html"⟩]⟩

/-- A month page whose second row is fine but whose first row's `csk`
does not parse. -/
def fixtureBadPage : MonthPage :=
  ⟨"october", "https://www.basketball-reference.com/leagues/NBA_2022_games-october.html",
   .ok [fixtureBadRow, fixtureGoodRow]⟩

/-- A month page with a single cleanly contributing row. -/
def fixtureOkPage : MonthPage :=
  ⟨"october", "https://www.basketball-reference.com/leagues/NBA_2022_games-october.html",
   .ok [fixtureGoodRow]⟩

/-- A second clean month page (one November game). -/
def fixtureOkPage2 : MonthPage :=
  ⟨"november", "https://www.basketball-reference.com/leagues/NBA_2022_games-november.html",
   .ok [⟨some (some "202111030BOS"), some [⟨some "/boxscores/202111030BOS.html"⟩]⟩]⟩

/-- A month page answered with HTTP 404. -/
def fixture404Page : MonthPage :=
  ⟨"december", "https://www.basketball-reference.com/leagues/NBA_2022_games-december.html",
   .httpErr 404⟩

/-- A player row with a full set of 21 statistical cells, one of them
blank. -/
def fixtureStatRow : PlayerRow :=
  ⟨some "Giannis Antetokounmpo",
   Cell.mk none "35:17" :: Cell.mk none "  " :: List.replicate 19 (Cell.mk none " 5 ")⟩

/-- A player row marked "Did Not Play". -/
def fixtureDnpRow : PlayerRow :=
  ⟨some "Jrue Holiday", [⟨some "reason", "Did Not Play (Injury)"⟩]⟩

/-- A player row whose parsed cell count is wrong (one lone cell). -/
def fixtureShortRow : PlayerRow := ⟨some "Bobby Portis", [⟨none, "3"⟩]⟩

/-- The Bucks table of the fixture box score page. -/
def fixtureTableMIL : TeamTable :=
  ⟨some "Milwaukee Bucks Basic and Advanced Stats Table",
   some [fixtureStatRow, fixtureDnpRow, fixtureShortRow, ⟨some "Team Totals", []⟩]⟩

/-- The Nets table of the fixture box score page. -/
def fixtureTableBRK : TeamTable :=
  ⟨some "Brooklyn Nets Basic and Advanced Stats Table", some []⟩

/-- A successfully fetched box score page with two team tables. -/
def fixtureBoxPage : BoxPage :=
  ⟨"https://www.basketball-reference.com/boxscores/202110190MIL.html",
   .ok [fixtureTableMIL, fixtureTableBRK]⟩

/-! ## Helper lemmas: the row-shape invariant of `extract_player_data` -/

/-- A row the shape guard lets through has exactly the schema length. -/
theorem rowOutcome_emitted_length {date link tn opp : String} {ih : Bool}
    {th : String} {r : PlayerRow} {s : List String}
    (h : rowOutcome date link tn opp ih th r = .emitted s) :
    s.length = df_columns.length := by
  unfold rowOutcome at h
  split at h
  · exact absurd h (by simp)
  · dsimp only at h
    split at h
    · injection h with h'
      subst h'
      assumption
    · exact absurd h (by simp)

/-- Every row the row loop emits has the schema length. -/
theorem processRows_length {date link tn opp : String} {ih : Bool} :
    ∀ {rows : List PlayerRow} {s : List String},
      s ∈ (processRows date link tn opp ih rows).1 → s.length = df_columns.length := by
  intro rows
  induction rows with
  | nil => intro s hs; simp [processRows] at hs
  | cons r rest ihr =>
    intro s hs
    cases hth : r.th with
    | none => simp [processRows, hth] at hs
    | some th =>
      cases ho : rowOutcome date link tn opp ih th r with
      | emitted s' =>
        simp only [processRows, hth, ho] at hs
        rcases List.mem_cons.mp hs with h | h
        · exact h ▸ rowOutcome_emitted_length ho
        · exact ihr h
      | aggregateSkipped =>
        simp only [processRows, hth, ho] at hs
        exact ihr hs
      | droppedIncomplete n =>
        simp only [processRows, hth, ho] at hs
        exact ihr hs

/-- Every row the table loop emits has the schema length. -/
theorem processTables_length {date link : String} {home_team : Option String}
    {team_names : List String} :
    ∀ {tables : List TeamTable} {s : List String},
      s ∈ (processTables date link home_team team_names tables).1 →
      s.length = df_columns.length := by
  intro tables
  induction tables with
  | nil => intro s hs; simp [processTables] at hs
  | cons t rest ihr =>
    intro s hs
    cases hc : t.caption with
    | none => simp [processTables, hc] at hs
    | some cap =>
      cases team_names with
      | nil => simp [processTables, hc] at hs
      | cons n0 ns =>
        cases hop : (if n0 = captionTeam cap then ns.head? else some n0) with
        | none => simp [processTables, hc, hop] at hs
        | some opp =>
          cases htb : t.tbody with
          | none => simp [processTables, hc, hop, htb] at hs
          | some rows =>
            simp only [processTables, hc, hop, htb] at hs
            split at hs
            · exact processRows_length hs
            · rcases List.mem_append.mp hs with h | h
              · exact processRows_length h
              · exact ihr h

/-- Every row a processed box score page contributes has the schema length. -/
theorem processBoxPage_length {date link : String} {tables : List TeamTable}
    {s : List String} (hs : s ∈ (processBoxPage date link tables).1) :
    s.length = df_columns.length := by
  unfold processBoxPage at hs
  split at hs
  · simp at hs
  · exact processTables_length hs

/-- Every row one link iteration contributes has the schema length. -/
theorem processLink_length {date : String} {p : BoxPage} {s : List String}
    (hs : s ∈ (processLink date p).1) : s.length = df_columns.length := by
  unfold processLink at hs
  split at hs
  · exact processBoxPage_length hs
  · simp at hs
  · simp at hs

/-- Every row the inner link loop emits has the schema length. -/
theorem extractBatch_length :
    ∀ {ps : List BoxPage} {ds : List String} {s : List String},
      s ∈ (extractBatch ps ds).rows → s.length = df_columns.length := by
  intro ps
  induction ps with
  | nil => intro ds s hs; simp [extractBatch] at hs
  | cons p rest ihr =>
    intro ds s hs
    cases ds with
    | nil => simp [extractBatch] at hs
    | cons d ds' =>
      unfold extractBatch at hs
      rcases List.mem_append.mp hs with h | h
      · exact processLink_length h
      · exact ihr h

/-- Every row `extract_player_data` emits has the schema length. -/
theorem extract_player_data_length :
    ∀ {bl : List (List BoxPage)} {ad : List (List String)} {s : List String},
      s ∈ (extract_player_data bl ad).rows → s.length = df_columns.length := by
  intro bl
  induction bl with
  | nil => intro ad s hs; simp [extract_player_data] at hs
  | cons g gs ihr =>
    intro ad s hs
    cases ad with
    | nil => simp [extract_player_data] at hs
    | cons d ds =>
      unfold extract_player_data at hs
      rcases List.mem_append.mp hs with h | h
      · exact extractBatch_length h
      · exact ihr h

/-- A non-aggregate row whose built stats list has the schema length is
emitted as exactly that list. -/
theorem rowOutcome_emitted_of_length {date link tn opp th : String} {ih : Bool}
    {r : PlayerRow} (h1 : th ≠ "Team Totals") (h2 : th ≠ "Reserves")
    (hlen : (buildStats date link tn opp ih (normalize_name (pyStrip th)) r).length =
      df_columns.length) :
    rowOutcome date link tn opp ih th r =
      .emitted (buildStats date link tn opp ih (normalize_name (pyStrip th)) r) := by
  unfold rowOutcome
  rw [if_neg (by simp [h1, h2])]
  dsimp only
  rw [if_pos hlen]

/-- A row whose outcome is `emitted` lands in the row loop's output for
any row list containing it in which every row has a `th`. -/
theorem processRows_mem_emitted {date link tn opp th : String} {ih : Bool}
    {r : PlayerRow} {s : List String} (hth : r.th = some th)
    (hem : rowOutcome date link tn opp ih th r = .emitted s) :
    ∀ rows, r ∈ rows → (∀ r' ∈ rows, (r'.th).isSome) →
      s ∈ (processRows date link tn opp ih rows).1 := by
  intro rows
  induction rows with
  | nil => intro h _; simp at h
  | cons r0 rest ihr =>
    intro hr hall
    rcases List.mem_cons.mp hr with heq | hmem
    · subst heq
      simp only [processRows, hth, hem]
      exact List.mem_cons_self _ _
    · have h0 := hall r0 (List.mem_cons_self r0 rest)
      have hrest := ihr hmem (fun r' h' => hall r' (List.mem_cons_of_mem _ h'))
      cases hth0 : r0.th with
      | none => rw [hth0] at h0; simp at h0
      | some th0 =>
        cases ho : rowOutcome date link tn opp ih th0 r0 with
        | emitted s0 =>
          simp only [processRows, hth0, ho]
          exact List.mem_cons_of_mem _ hrest
        | aggregateSkipped => simp only [processRows, hth0, ho]; exact hrest
        | droppedIncomplete n => simp only [processRows, hth0, ho]; exact hrest

/-- Index computation for the DNP sentinel block of a stats list. -/
theorem getElem?_four_append_replicate {α : Type} (a b c d e f x : α) (k i : Nat)
    (h4 : 4 ≤ i) (hik : i < 4 + k) :
    ([a, b, c, d] ++ (List.replicate k x ++ [e, f]))[i]? = some x := by
  rw [List.getElem?_append_right (by simpa using h4)]
  rw [List.getElem?_append_left (by simp; omega)]
  exact List.getElem?_replicate_of_lt (by simp; omega)

/-! ## Helper lemmas: the row loop of `get_box_score_links` -/

/-- When a row does not raise, its contribution is `rowLink`. -/
theorem rowStep_ok_eq {sd ed : Date} {r : ScheduleRow} {x : Option (String × String)}
    (h : rowStep sd ed r = .ok x) : x = rowLink sd ed r := by
  obtain ⟨dc, bc⟩ := r
  cases dc with
  | none =>
    simp only [rowStep] at h
    simp only [rowLink]
    exact (Except.ok.inj h).symm
  | some dc2 =>
    cases dc2 with
    | none =>
      simp only [rowStep] at h
      simp only [rowLink]
      exact (Except.ok.inj h).symm
    | some csk =>
      cases hp : parseYMD8 csk with
      | none =>
        simp only [rowStep, hp] at h
        exact Except.noConfusion h
      | some gd =>
        simp only [rowStep, hp] at h
        simp only [rowLink, hp]
        by_cases hin : (sd.key ≤ gd.key && gd.key ≤ ed.key) = true
        · rw [if_pos hin] at h
          rw [if_pos hin]
          cases bc with
          | none =>
            exact (Except.ok.inj h).symm
          | some anchors =>
            dsimp only at h ⊢
            cases hfd : anchors.find? (fun a => a.href.isSome) with
            | none =>
              rw [hfd] at h
              dsimp only at h ⊢
              exact (Except.ok.inj h).symm
            | some a =>
              rw [hfd] at h
              cases anchors with
              | nil => simp at hfd
              | cons a0 rest =>
                dsimp only at h ⊢
                cases hh : a0.href with
                | none =>
                  rw [hh] at h
                  dsimp only at h
                  exact Except.noConfusion h
                | some u =>
                  rw [hh] at h
                  dsimp only at h
                  have ha : a = a0 := by
                    have h2 : List.find? (fun a => a.href.isSome) (a0 :: rest) = some a0 :=
                      List.find?_cons_of_pos _ (by simp [hh])
                    exact Option.some.inj (hfd.symm.trans h2)
                  subst ha
                  rw [hh]
                  simp only [Option.map_some']
                  exact (Except.ok.inj h).symm
        · rw [if_neg hin] at h
          rw [if_neg hin]
          exact (Except.ok.inj h).symm

/-- A row with an unparseable `csk` prefix raises. -/
theorem rowStep_badCsk {sd ed : Date} {r : ScheduleRow} (h : badCsk r) :
    rowStep sd ed r = .error () := by
  obtain ⟨csk, hc, hp⟩ := h
  simp only [rowStep, hc, hp]

/-- A page whose rows all process cleanly produces exactly the in-order
`rowLink` contributions, URLs and dates in lockstep. -/
theorem collectPageLinks_ok_eq {sd ed : Date} :
    ∀ {rows : List ScheduleRow} {ls ds : List String},
      collectPageLinks sd ed rows = .ok (ls, ds) →
      ls = (rows.filterMap (rowLink sd ed)).map Prod.fst ∧
      ds = (rows.filterMap (rowLink sd ed)).map Prod.snd := by
  intro rows
  induction rows with
  | nil =>
    intro ls ds h
    simp only [collectPageLinks, Except.ok.injEq, Prod.mk.injEq] at h
    simp [← h.1, ← h.2]
  | cons r rest ihr =>
    intro ls ds h
    simp only [collectPageLinks] at h
    cases hs : rowStep sd ed r with
    | error e => rw [hs] at h; exact Except.noConfusion h
    | ok contrib =>
      rw [hs] at h
      cases hc : collectPageLinks sd ed rest with
      | error e => rw [hc] at h; exact Except.noConfusion h
      | ok pr =>
        obtain ⟨ls', ds'⟩ := pr
        rw [hc] at h
        obtain ⟨ih1, ih2⟩ := ihr hc
        have hrl : rowLink sd ed r = contrib := (rowStep_ok_eq hs).symm
        cases contrib with
        | none =>
          simp only [Except.ok.injEq, Prod.mk.injEq] at h
          rw [List.filterMap_cons_none hrl]
          exact ⟨h.1.symm.trans ih1, h.2.symm.trans ih2⟩
        | some udt =>
          obtain ⟨u, dt⟩ := udt
          simp only [Except.ok.injEq, Prod.mk.injEq] at h
          rw [List.filterMap_cons_some hrl]
          simp only [List.map_cons]
          exact ⟨h.1.symm.trans (by rw [ih1]), h.2.symm.trans (by rw [ih2])⟩

/-- A page containing a row with an unparseable `csk` prefix raises, and
the whole page's lists are discarded. -/
theorem collectPageLinks_badCsk {sd ed : Date} :
    ∀ {rows : List ScheduleRow}, (∃ r ∈ rows, badCsk r) →
      collectPageLinks sd ed rows = .error () := by
  intro rows
  induction rows with
  | nil => rintro ⟨r, hr, _⟩; simp at hr
  | cons r0 rest ihr =>
    rintro ⟨r, hr, hbad⟩
    rcases List.mem_cons.mp hr with heq | hmem
    · subst heq
      simp only [collectPageLinks, rowStep_badCsk hbad]
    · simp only [collectPageLinks]
      cases hs : rowStep sd ed r0 with
      | error e => simp
      | ok contrib => rw [ihr ⟨r, hmem, hbad⟩]

/-- The two output arrays of the page loop are the per-page groups of
`pageGroup`, in page order. -/
theorem boxScoreLoop_arrays {sd ed : Date} :
    ∀ pages : List MonthPage,
      (boxScoreLoop sd ed pages).box_link_array =
        (pages.filterMap (pageGroup sd ed)).map Prod.fst ∧
      (boxScoreLoop sd ed pages).all_dates =
        (pages.filterMap (pageGroup sd ed)).map Prod.snd := by
  intro pages
  induction pages with
  | nil => simp [boxScoreLoop]
  | cons p rest ihr =>
    obtain ⟨ih1, ih2⟩ := ihr
    cases hf : p.fetch with
    | ok rows =>
      cases hc : collectPageLinks sd ed rows with
      | error e =>
        simp only [boxScoreLoop, hf, hc]
        rw [List.filterMap_cons_none (by simp [pageGroup, hf, hc])]
        exact ⟨ih1, ih2⟩
      | ok pr =>
        obtain ⟨ls, ds⟩ := pr
        cases he : ls.isEmpty with
        | true =>
          simp only [boxScoreLoop, hf, hc, he, if_true]
          rw [List.filterMap_cons_none (by simp [pageGroup, hf, hc, he])]
          exact ⟨ih1, ih2⟩
        | false =>
          simp only [boxScoreLoop, hf, hc, he, Bool.false_eq_true, if_false]
          rw [List.filterMap_cons_some
            (show pageGroup sd ed p = some (ls, ds) by simp [pageGroup, hf, hc, he])]
          simp only [List.map_cons]
          exact ⟨by rw [ih1], by rw [ih2]⟩
    | httpErr s =>
      simp only [boxScoreLoop, hf]
      rw [List.filterMap_cons_none (by simp [pageGroup, hf])]
      exact ⟨ih1, ih2⟩
    | exn =>
      simp only [boxScoreLoop, hf]
      rw [List.filterMap_cons_none (by simp [pageGroup, hf])]
      exact ⟨ih1, ih2⟩

/-- What a contributing page group consists of. -/
theorem pageGroup_some_facts {sd ed : Date} {p : MonthPage} {ls ds : List String}
    (h : pageGroup sd ed p = some (ls, ds)) :
    ∃ rows, p.fetch = .ok rows ∧
      ls = (rows.filterMap (rowLink sd ed)).map Prod.fst ∧
      ds = (rows.filterMap (rowLink sd ed)).map Prod.snd ∧
      ls ≠ [] ∧ ls.length = ds.length := by
  unfold pageGroup at h
  cases hf : p.fetch with
  | ok rows =>
    rw [hf] at h
    dsimp only at h
    cases hc : collectPageLinks sd ed rows with
    | error e => rw [hc] at h; simp at h
    | ok pr =>
      obtain ⟨ls', ds'⟩ := pr
      rw [hc] at h
      dsimp only at h
      cases he : ls'.isEmpty with
      | true => rw [he] at h; simp at h
      | false =>
        rw [he] at h
        simp only [Bool.false_eq_true, if_false, Option.some.injEq, Prod.mk.injEq] at h
        obtain ⟨h1, h2⟩ := h
        subst h1
        subst h2
        obtain ⟨e1, e2⟩ := collectPageLinks_ok_eq hc
        refine ⟨rows, rfl, e1, e2, ?_, ?_⟩
        · intro hnil
          rw [hnil] at he
          simp at he
        · rw [e1, e2]
          simp
  | httpErr s => rw [hf] at h; simp at h
  | exn => rw [hf] at h; simp at h

/-- A failing page's report is in the loop's report trace wherever the
page sits in the list. -/
theorem boxScoreLoop_failure_reported {sd ed : Date} :
    ∀ (xs : List MonthPage) (ys : List MonthPage) (p : MonthPage),
      ((∃ st, p.fetch = .httpErr st) ∨ p.fetch = .exn) →
      failureReport p ∈ (boxScoreLoop sd ed (xs ++ p :: ys)).reports := by
  intro xs
  induction xs with
  | nil =>
    intro ys p hp
    rcases hp with ⟨st, hf⟩ | hf
    · simp only [List.nil_append, boxScoreLoop, hf, failureReport]
      exact List.mem_cons_self _ _
    · simp only [List.nil_append, boxScoreLoop, hf, failureReport]
      exact List.mem_cons_self _ _
  | cons q rest ihr =>
    intro ys p hp
    have hmem := ihr ys p hp
    cases hf : q.fetch with
    | ok rows =>
      cases hc : collectPageLinks sd ed rows with
      | error e =>
        simp only [List.cons_append, boxScoreLoop, hf, hc]
        exact List.mem_cons_of_mem _ hmem
      | ok pr =>
        obtain ⟨ls, ds⟩ := pr
        cases he : ls.isEmpty with
        | true => simp only [List.cons_append, boxScoreLoop, hf, hc, he, if_true]; exact hmem
        | false =>
          simp only [List.cons_append, boxScoreLoop, hf, hc, he, Bool.false_eq_true,
            if_false]
          exact hmem
    | httpErr s =>
      simp only [List.cons_append, boxScoreLoop, hf]
      exact List.mem_cons_of_mem _ hmem
    | exn =>
      simp only [List.cons_append, boxScoreLoop, hf]
      exact List.mem_cons_of_mem _ hmem

/-- Every sleep event of the page loop carries the month-page bounds. -/
theorem boxScoreLoop_sleep_bounds {sd ed : Date} :
    ∀ (pages : List MonthPage) (lo hi : ℚ),
      Event.sleep lo hi ∈ (boxScoreLoop sd ed pages).events →
      lo = month_page_delay.1 ∧ hi = month_page_delay.2 := by
  intro pages
  induction pages with
  | nil => intro lo hi h; simp [boxScoreLoop] at h
  | cons p rest ihr =>
    intro lo hi h
    cases hf : p.fetch with
    | ok rows =>
      cases hc : collectPageLinks sd ed rows with
      | error e =>
        simp only [boxScoreLoop, hf, hc] at h
        rcases List.mem_cons.mp h with heq | hmem
        · exact Event.noConfusion heq
        · exact ihr lo hi hmem
      | ok pr =>
        obtain ⟨ls, ds⟩ := pr
        have hev : (boxScoreLoop sd ed (p :: rest)).events =
            .fetch p.url :: .sleep month_page_delay.1 month_page_delay.2 ::
              (boxScoreLoop sd ed rest).events := by
          cases he : ls.isEmpty with
          | true => simp [boxScoreLoop, hf, hc, he]
          | false => simp [boxScoreLoop, hf, hc, he]
        rw [hev] at h
        rcases List.mem_cons.mp h with heq | hmem
        · exact Event.noConfusion heq
        · rcases List.mem_cons.mp hmem with heq2 | hmem2
          · obtain ⟨h1, h2⟩ := Event.sleep.inj heq2
            exact ⟨h1, h2⟩
          · exact ihr lo hi hmem2
    | httpErr s =>
      simp only [boxScoreLoop, hf] at h
      rcases List.mem_cons.mp h with heq | hmem
      · exact Event.noConfusion heq
      · exact ihr lo hi hmem
    | exn =>
      simp only [boxScoreLoop, hf] at h
      rcases List.mem_cons.mp h with heq | hmem
      · exact Event.noConfusion heq
      · exact ihr lo hi hmem

/-- Every sleep event of the inner extract loop carries the box-page
bounds. -/
theorem extractBatch_sleep_bounds :
    ∀ (ps : List BoxPage) (ds : List String) (lo hi : ℚ),
      Event.sleep lo hi ∈ (extractBatch ps ds).events →
      lo = box_page_delay.1 ∧ hi = box_page_delay.2 := by
  intro ps
  induction ps with
  | nil => intro ds lo hi h; simp [extractBatch] at h
  | cons p rest ihr =>
    intro ds lo hi h
    cases ds with
    | nil => simp [extractBatch] at h
    | cons d ds' =>
      simp only [extractBatch] at h
      rcases List.mem_cons.mp h with heq | hmem
      · exact Event.noConfusion heq
      · rcases List.mem_cons.mp hmem with heq2 | hmem2
        · obtain ⟨h1, h2⟩ := Event.sleep.inj heq2
          exact ⟨h1, h2⟩
        · exact ihr ds' lo hi hmem2

/-- Every sleep event of `extract_player_data` carries the box-page
bounds. -/
theorem extract_player_data_sleep_bounds :
    ∀ (bl : List (List BoxPage)) (ad : List (List String)) (lo hi : ℚ),
      Event.sleep lo hi ∈ (extract_player_data bl ad).events →
      lo = box_page_delay.1 ∧ hi = box_page_delay.2 := by
  intro bl
  induction bl with
  | nil => intro ad lo hi h; simp [extract_player_data] at h
  | cons g gs ihr =>
    intro ad lo hi h
    cases ad with
    | nil => simp [extract_player_data] at h
    | cons d ds =>
      simp only [extract_player_data] at h
      rcases List.mem_append.mp h with hmem | hmem
      · exact extractBatch_sleep_bounds g d lo hi hmem
      · exact ihr ds lo hi hmem

/-! ## Claim C1 -/

/-- C1: every row `extract_player_data` appends to its output has exactly
27 fields — the declared schema length (`len(df_columns) = 27`) — and any
parsed row whose field count differs from the schema length is dropped
with the "Skipping incomplete data" diagnostic, never appended, padded,
or truncated. -/
theorem C1_emitted_rows_have_schema_width :
    (∀ (box_links : List (List BoxPage)) (all_dates : List (List String))
        (r : List String),
        r ∈ (extract_player_data box_links all_dates).rows → r.length = 27) ∧
    df_columns.length = 27 ∧
    (∀ (date link tn opp : String) (ih : Bool) (th : String) (r : PlayerRow),
        th ≠ "Team Totals" → th ≠ "Reserves" →
        (buildStats date link tn opp ih (normalize_name (pyStrip th)) r).length ≠
          df_columns.length →
        rowOutcome date link tn opp ih th r =
          .droppedIncomplete (normalize_name (pyStrip th))) := by
  refine ⟨?_, by decide, ?_⟩
  · intro box_links all_dates r hr
    exact (extract_player_data_length hr).trans (by decide)
  · intro date link tn opp ih th r h1 h2 hlen
    unfold rowOutcome
    have hagg : ¬((th = "Team Totals" || th = "Reserves") = true) := by simp [h1, h2]
    rw [if_neg hagg]
    dsimp only
    rw [if_neg hlen]

/-- Witness for C1 at concrete inputs: the fixture page's emitted DNP row
has 27 fields, and the fixture one-cell row is dropped with the
diagnostic. -/
theorem C1_emitted_rows_have_schema_width_witness :
    (["2021-10-19", "Jrue Holiday", "Milwaukee Bucks", "Brooklyn Nets"] ++
        List.replicate 21 "DNP" ++ [fixtureBoxPage.link, "1"]).length = 27 ∧
    rowOutcome "2021-10-19" fixtureBoxPage.link "Milwaukee Bucks" "Brooklyn Nets"
        true "Bobby Portis" fixtureShortRow = .droppedIncomplete "Bobby Portis" := by
  constructor
  · exact C1_emitted_rows_have_schema_width.1 [[fixtureBoxPage]] [["2021-10-19"]] _
      (by decide)
  · have h := C1_emitted_rows_have_schema_width.2.2 "2021-10-19" fixtureBoxPage.link
      "Milwaukee Bucks" "Brooklyn Nets" true "Bobby Portis" fixtureShortRow
      (by decide) (by decide) (by decide)
    rw [show normalize_name (pyStrip "Bobby Portis") = "Bobby Portis" from by decide] at h
    exact h

/-! ## Claim C2 -/

/-- C2: a player row whose reason cell contains "Did Not Play" is emitted
with the literal sentinel `"DNP"` in every statistical column — all
columns strictly between `Opponent` (index 3) and `GameLink` (index 25),
i.e. indices 4 through 24 — never a numeric zero, and such a row is still
appended by the row loop rather than dropped. -/
theorem C2_dnp_rows_emitted_with_sentinels :
    ∀ (date link tn opp : String) (ih : Bool) (th : String) (r : PlayerRow),
      r.th = some th → th ≠ "Team Totals" → th ≠ "Reserves" →
      isDNP r = true →
      rowOutcome date link tn opp ih th r =
        .emitted (buildStats date link tn opp ih (normalize_name (pyStrip th)) r) ∧
      (∀ i, 4 ≤ i → i ≤ 24 →
        (buildStats date link tn opp ih (normalize_name (pyStrip th)) r)[i]? =
          some "DNP") ∧
      (∀ rows, r ∈ rows → (∀ r' ∈ rows, (r'.th).isSome) →
        buildStats date link tn opp ih (normalize_name (pyStrip th)) r ∈
          (processRows date link tn opp ih rows).1) := by
  intro date link tn opp ih th r hth h1 h2 hdnp
  have hsf : statFields r = List.replicate (df_columns.length - 6) "DNP" := by
    simp [statFields, hdnp]
  have hlen : (buildStats date link tn opp ih (normalize_name (pyStrip th)) r).length =
      df_columns.length := by
    simp only [buildStats, hsf, List.length_append, List.length_replicate,
      List.length_cons, List.length_nil]
    decide
  have hem := rowOutcome_emitted_of_length h1 h2 hlen
  refine ⟨hem, ?_, ?_⟩
  · intro i h4 h24
    have hk : df_columns.length - 6 = 21 := by decide
    unfold buildStats
    rw [hsf, List.append_assoc]
    exact getElem?_four_append_replicate _ _ _ _ _ _ _ _ i h4 (by rw [hk]; omega)
  · exact processRows_mem_emitted hth hem

/-- Witness for C2: the fixture "Did Not Play" row is appended by the row
loop and carries the sentinel in its first statistical column. -/
theorem C2_dnp_rows_emitted_with_sentinels_witness :
    buildStats "2021-10-19" "L" "Milwaukee Bucks" "Brooklyn Nets" true
        (normalize_name (pyStrip "Jrue Holiday")) fixtureDnpRow ∈
      (processRows "2021-10-19" "L" "Milwaukee Bucks" "Brooklyn Nets" true
        [fixtureDnpRow]).1 ∧
    (buildStats "2021-10-19" "L" "Milwaukee Bucks" "Brooklyn Nets" true
        (normalize_name (pyStrip "Jrue Holiday")) fixtureDnpRow)[4]? = some "DNP" := by
  have h := C2_dnp_rows_emitted_with_sentinels "2021-10-19" "L" "Milwaukee Bucks"
    "Brooklyn Nets" true "Jrue Holiday" fixtureDnpRow rfl (by decide) (by decide)
    (by decide)
  exact ⟨h.2.2 [fixtureDnpRow] (by simp) (by decide), h.2.1 4 (by omega) (by omega)⟩

/-! ## Claim C10 -/

/-- C10: for a player row not marked "Did Not Play" (and emitted — its
cell count matches the 21 statistical columns), a statistical cell whose
text strips to the empty string is emitted as the literal string `"0"`
(`td.text.strip() or '0'`), indistinguishable from a true zero. -/
theorem C10_blank_cells_emitted_as_zero :
    ∀ (date link tn opp : String) (ih : Bool) (th : String) (r : PlayerRow) (i : Nat)
      (hi : i < r.cells.length),
      th ≠ "Team Totals" → th ≠ "Reserves" →
      isDNP r = false →
      r.cells.length = df_columns.length - 6 →
      pyStrip (r.cells.get ⟨i, hi⟩).text = "" →
      rowOutcome date link tn opp ih th r =
        .emitted (buildStats date link tn opp ih (normalize_name (pyStrip th)) r) ∧
      (buildStats date link tn opp ih (normalize_name (pyStrip th)) r)[4 + i]? =
        some "0" := by
  intro date link tn opp ih th r i hi h1 h2 hnd hcl hblank
  have hsf : statFields r =
      r.cells.map (fun td => if pyStrip td.text = "" then "0" else pyStrip td.text) := by
    simp [statFields, hnd]
  have hlen : (buildStats date link tn opp ih (normalize_name (pyStrip th)) r).length =
      df_columns.length := by
    simp only [buildStats, hsf, List.length_append, List.length_map,
      List.length_cons, List.length_nil, hcl]
    decide
  refine ⟨rowOutcome_emitted_of_length h1 h2 hlen, ?_⟩
  unfold buildStats
  rw [hsf, List.append_assoc]
  rw [List.getElem?_append_right (by simp)]
  have hidx : 4 + i - ([date, normalize_name (pyStrip th), tn, opp] : List String).length
      = i := by simp
  rw [hidx]
  rw [List.getElem?_append_left (by simpa using hi)]
  rw [List.getElem?_map, List.getElem?_eq_getElem hi]
  have hblank2 : pyStrip (r.cells[i]).text = "" := hblank
  simp [hblank2]

/-- Witness for C10: the fixture row's second statistical cell is blank
and is emitted as `"0"` at stats index 5. -/
theorem C10_blank_cells_emitted_as_zero_witness :
    rowOutcome "2021-10-19" "L" "Milwaukee Bucks" "Brooklyn Nets" true
        "Giannis Antetokounmpo" fixtureStatRow =
      .emitted (buildStats "2021-10-19" "L" "Milwaukee Bucks" "Brooklyn Nets" true
        (normalize_name (pyStrip "Giannis Antetokounmpo")) fixtureStatRow) ∧
    (buildStats "2021-10-19" "L" "Milwaukee Bucks" "Brooklyn Nets" true
        (normalize_name (pyStrip "Giannis Antetokounmpo")) fixtureStatRow)[4 + 1]? =
      some "0" :=
  C10_blank_cells_emitted_as_zero "2021-10-19" "L" "Milwaukee Bucks" "Brooklyn Nets"
    true "Giannis Antetokounmpo" fixtureStatRow 1 (by decide) (by decide) (by decide)
    (by decide) (by decide) (by decide)

/-! ## Helper lemmas: decimal digits and Python `int` parsing -/

/-- A digit character is an ASCII digit. -/
theorem isD_digitChar {x : Nat} (h : x < 10) : isD (digitChar x) = true := by
  interval_cases x <;> decide

/-- `digitVal` inverts `digitChar` on digit values. -/
theorem digitVal_digitChar {x : Nat} (h : x < 10) : digitVal (digitChar x) = x := by
  interval_cases x <;> decide

/-- A dash is not a digit character. -/
theorem dash_ne_digitChar {x : Nat} (h : x < 10) : ¬(('-' : Char) = digitChar x) := by
  interval_cases x <;> decide

/-- A digit character is `'0'` exactly for the value zero. -/
theorem digitChar_eq_zero_iff {x : Nat} (h : x < 10) : digitChar x = '0' ↔ x = 0 := by
  interval_cases x <;> decide

/-- An ASCII digit is not whitespace. -/
theorem isD_not_ws {c : Char} (h : isD c = true) : isWS c = false := by
  have h1 : c ≠ ' ' := by rintro rfl; exact absurd h (by decide)
  have h2 : c ≠ '\t' := by rintro rfl; exact absurd h (by decide)
  have h3 : c ≠ '\n' := by rintro rfl; exact absurd h (by decide)
  have h4 : c ≠ '\r' := by rintro rfl; exact absurd h (by decide)
  have h5 : c ≠ '\x0b' := by rintro rfl; exact absurd h (by decide)
  have h6 : c ≠ '\x0c' := by rintro rfl; exact absurd h (by decide)
  simp [isWS, h1, h2, h3, h4, h5, h6]

/-- An ASCII digit is not a plus sign. -/
theorem isD_ne_plus {c : Char} (h : isD c = true) : c ≠ '+' := by
  rintro rfl; exact absurd h (by decide)

/-- An ASCII digit is not a minus sign. -/
theorem isD_ne_minus {c : Char} (h : isD c = true) : c ≠ '-' := by
  rintro rfl; exact absurd h (by decide)

/-- An ASCII digit is not an underscore. -/
theorem isD_ne_us {c : Char} (h : isD c = true) : c ≠ '_' := by
  rintro rfl; exact absurd h (by decide)

/-- Stripping leaves an all-digit string unchanged. -/
theorem trimChars_of_digits {cs : List Char} (h : ∀ c ∈ cs, isD c = true) :
    trimChars cs = cs := by
  unfold trimChars
  have hd : cs.dropWhile isWS = cs := by
    cases cs with
    | nil => rfl
    | cons c rest =>
      exact List.dropWhile_cons_of_neg
        (by simp [isD_not_ws (h c (List.mem_cons_self c rest))])
  rw [hd]
  have hr : cs.reverse.dropWhile isWS = cs.reverse := by
    cases hcr : cs.reverse with
    | nil => rfl
    | cons c rest =>
      have hc : c ∈ cs := by
        have : c ∈ cs.reverse := by rw [hcr]; exact List.mem_cons_self _ _
        simpa using this
      exact List.dropWhile_cons_of_neg (by simp [isD_not_ws (h c hc)])
  rw [hr, List.reverse_reverse]

/-- The digit-run worker accepts any all-digit tail. -/
theorem parseNatUGo_digits :
    ∀ {cs : List Char}, (∀ c ∈ cs, isD c = true) → ∀ acc, ∃ n,
      parseNatUGo acc cs = some n := by
  intro cs
  induction cs with
  | nil => intro _ acc; exact ⟨acc, rfl⟩
  | cons c rest ihr =>
    intro h acc
    have hc := h c (List.mem_cons_self _ _)
    rw [parseNatUGo.eq_def]
    dsimp only
    rw [if_neg (isD_ne_us hc), if_pos hc]
    exact ihr (fun c' h' => h c' (List.mem_cons_of_mem _ h')) _

/-- A non-empty all-digit run parses. -/
theorem parseNatU_digits {cs : List Char} (hne : cs ≠ [])
    (h : ∀ c ∈ cs, isD c = true) : ∃ n, parseNatU cs = some n := by
  cases cs with
  | nil => exact absurd rfl hne
  | cons c rest =>
    simp only [parseNatU]
    rw [if_pos (h c (List.mem_cons_self _ _))]
    exact parseNatUGo_digits (fun c' h' => h c' (List.mem_cons_of_mem _ h')) _

/-- `int()` accepts any non-empty all-digit string, producing a natural
number. -/
theorem pyIntChars_digits {cs : List Char} (hne : cs ≠ [])
    (h : ∀ c ∈ cs, isD c = true) : ∃ n : Nat, pyIntChars cs = some (n : Int) := by
  unfold pyIntChars
  rw [trimChars_of_digits h]
  cases cs with
  | nil => exact absurd rfl hne
  | cons c rest =>
    have hc := h c (List.mem_cons_self _ _)
    dsimp only
    rw [if_neg (isD_ne_plus hc), if_neg (isD_ne_minus hc)]
    obtain ⟨n, hn⟩ := parseNatU_digits (by simp) h
    rw [hn]
    exact ⟨n, rfl⟩

/-- One digit-run step on an explicit digit character. -/
theorem parseNatUGo_cons_digit (acc v : Nat) (hv : v < 10) (rest : List Char) :
    parseNatUGo acc (digitChar v :: rest) = parseNatUGo (acc * 10 + v) rest := by
  rw [parseNatUGo.eq_def]
  dsimp only
  rw [if_neg (isD_ne_us (isD_digitChar hv)), if_pos (isD_digitChar hv),
    digitVal_digitChar hv]

/-- The digit run of four explicit digit characters and its value. -/
theorem parseNatU_fourDigits (v1 v2 v3 v4 : Nat) (h1 : v1 < 10) (h2 : v2 < 10)
    (h3 : v3 < 10) (h4 : v4 < 10) :
    parseNatU [digitChar v1, digitChar v2, digitChar v3, digitChar v4] =
      some (v1 * 1000 + v2 * 100 + v3 * 10 + v4) := by
  simp only [parseNatU]
  rw [if_pos (isD_digitChar h1), digitVal_digitChar h1,
    parseNatUGo_cons_digit _ _ h2, parseNatUGo_cons_digit _ _ h3,
    parseNatUGo_cons_digit _ _ h4]
  simp only [parseNatUGo]
  congr 1
  ring

/-- `int()` of four explicit digit characters. -/
theorem pyIntChars_fourDigits (v1 v2 v3 v4 : Nat) (h1 : v1 < 10) (h2 : v2 < 10)
    (h3 : v3 < 10) (h4 : v4 < 10) :
    pyIntChars [digitChar v1, digitChar v2, digitChar v3, digitChar v4] =
      some ((v1 * 1000 + v2 * 100 + v3 * 10 + v4 : Nat) : Int) := by
  have hall : ∀ c ∈ [digitChar v1, digitChar v2, digitChar v3, digitChar v4],
      isD c = true := by
    intro c hc
    simp only [List.mem_cons, List.not_mem_nil, or_false] at hc
    rcases hc with rfl | rfl | rfl | rfl
    exacts [isD_digitChar h1, isD_digitChar h2, isD_digitChar h3, isD_digitChar h4]
  unfold pyIntChars
  rw [trimChars_of_digits hall]
  dsimp only
  rw [if_neg (isD_ne_plus (isD_digitChar h1)),
    if_neg (isD_ne_minus (isD_digitChar h1)),
    parseNatU_fourDigits v1 v2 v3 v4 h1 h2 h3 h4]
  rfl

/-- `splitOnPatF` on an empty input. -/
theorem splitOnPatF_nil (pat : List Char) (fuel : Nat) (acc : List Char) :
    splitOnPatF pat fuel [] acc = [acc.reverse] := by
  cases fuel with
  | zero => simp [splitOnPatF]
  | succ f => simp [splitOnPatF]

/-- `splitOnPatF` step on a non-separator head. -/
theorem splitOnPatF_step_ne (pat : List Char) (fuel : Nat) (c : Char)
    (cs acc : List Char) (h : startsWithB pat (c :: cs) = false) :
    splitOnPatF pat (fuel + 1) (c :: cs) acc = splitOnPatF pat fuel cs (c :: acc) := by
  simp [splitOnPatF, h]

/-- `splitOnPatF` step at a separator occurrence. -/
theorem splitOnPatF_step_eq (pat : List Char) (fuel : Nat) (c : Char)
    (cs acc : List Char) (h : startsWithB pat (c :: cs) = true) :
    splitOnPatF pat (fuel + 1) (c :: cs) acc =
      acc.reverse :: splitOnPatF pat fuel (List.drop pat.length (c :: cs)) [] := by
  simp [splitOnPatF, h]

/-- Splitting a `dddd-dd` character list on the dash. -/
theorem splitOnPat_dash_label (d1 d2 d3 d4 e1 e2 : Char)
    (h1 : isD d1 = true) (h2 : isD d2 = true) (h3 : isD d3 = true)
    (h4 : isD d4 = true) (h5 : isD e1 = true) (h6 : isD e2 = true) :
    splitOnPat ['-'] [d1, d2, d3, d4, '-', e1, e2] = [[d1, d2, d3, d4], [e1, e2]] := by
  have n1 : ¬ (('-' : Char) = d1) := fun he => absurd h1 (by rw [← he]; decide)
  have n2 : ¬ (('-' : Char) = d2) := fun he => absurd h2 (by rw [← he]; decide)
  have n3 : ¬ (('-' : Char) = d3) := fun he => absurd h3 (by rw [← he]; decide)
  have n4 : ¬ (('-' : Char) = d4) := fun he => absurd h4 (by rw [← he]; decide)
  have m1 : ¬ (('-' : Char) = e1) := fun he => absurd h5 (by rw [← he]; decide)
  have m2 : ¬ (('-' : Char) = e2) := fun he => absurd h6 (by rw [← he]; decide)
  unfold splitOnPat
  rw [if_neg (by decide)]
  simp only [List.length_cons]
  rw [splitOnPatF_step_ne _ _ _ _ _ (by simp [startsWithB, n1])]
  rw [splitOnPatF_step_ne _ _ _ _ _ (by simp [startsWithB, n2])]
  rw [splitOnPatF_step_ne _ _ _ _ _ (by simp [startsWithB, n3])]
  rw [splitOnPatF_step_ne _ _ _ _ _ (by simp [startsWithB, n4])]
  rw [splitOnPatF_step_eq _ _ _ _ _ (by simp [startsWithB])]
  rw [show List.drop (['-'] : List Char).length ['-', e1, e2] = [e1, e2] from rfl]
  rw [splitOnPatF_step_ne _ _ _ _ _ (by simp [startsWithB, m1])]
  rw [splitOnPatF_step_ne _ _ _ _ _ (by simp [startsWithB, m2])]
  rw [splitOnPatF_nil]
  simp

/-- `natDigits` of a single-digit value, for any positive fuel. -/
theorem natDigits_of_lt_ten {fuel n : Nat} (hn : n < 10) (hf : 1 ≤ fuel) :
    natDigits fuel n = [digitChar n] := by
  cases fuel with
  | zero => omega
  | succ f => simp [natDigits, hn]

/-- One `natDigits` division step, for any positive fuel. -/
theorem natDigits_step {fuel n : Nat} (hn : ¬ n < 10) (hf : 1 ≤ fuel) :
    natDigits fuel n = natDigits (fuel - 1) (n / 10) ++ [digitChar (n % 10)] := by
  cases fuel with
  | zero => omega
  | succ f => simp [natDigits, hn]

/-- `str()` of a four-digit natural number, digit by digit. -/
theorem natToChars_fourDigits (n : Nat) (hlo : 1000 ≤ n) (hhi : n ≤ 9999) :
    natToChars n = [digitChar (n / 1000), digitChar (n / 100 % 10),
      digitChar (n / 10 % 10), digitChar (n % 10)] := by
  unfold natToChars
  rw [natDigits_step (by omega) (by omega)]
  rw [natDigits_step (by omega) (by omega)]
  rw [natDigits_step (by omega) (by omega)]
  rw [natDigits_of_lt_ten (by omega) (by omega)]
  have e1 : n / 10 / 10 / 10 = n / 1000 := by omega
  have e2 : n / 10 / 10 % 10 = n / 100 % 10 := by omega
  rw [e1, e2]
  simp

/-- `str()` of a non-negative integer is `str()` of the natural number. -/
theorem intToChars_natCast (n : Nat) : intToChars (n : Int) = natToChars n := by
  unfold intToChars
  rw [if_neg (by exact Int.not_lt.mpr (Int.natCast_nonneg n)), Int.toNat_ofNat]

/-! ## Claim C3 -/

/-- Counterexample to C3: `fixtureGoodRow` satisfies all three
contribution conditions (parseable `csk` date attribute, date inside the
October 2021 window, resolvable box-score link — witnessed by `rowLink`
producing its pair), yet on a page whose first row carries an unparseable
`csk` the row contributes nothing, and that failing row is not skipped
silently: the page loop reports it through the general error handler. -/
theorem C3_counterexample :
    rowLink ⟨2021, 10, 1⟩ ⟨2021, 10, 31⟩ fixtureGoodRow =
      some ("https://www.basketball-reference.com/boxscores/202110190MIL.html",
            "2021-10-19") ∧
    badCsk fixtureBadRow ∧
    boxScoreLoop ⟨2021, 10, 1⟩ ⟨2021, 10, 31⟩ [fixtureBadPage] =
      ⟨[], [], [.fetch fixtureBadPage.url], [.fetchError fixtureBadPage.url]⟩ :=
  ⟨by decide, ⟨"notadate", rfl, by decide⟩, by decide⟩

/-- C3 as amended: on a page whose rows all process cleanly, a row
contributes a (URL, formatted game date) pair exactly when `rowLink`
produces one — the date attribute parses, the date is inside the window
inclusive, and the box-score cell holds an anchor with an `href` — with
rows failing these conditions skipped silently; but a row whose `csk`
prefix fails to parse raises instead, and the whole page's contributions
are discarded (and, per `boxScoreLoop`, reported). -/
theorem C3_amended_row_contributions :
    ∀ (sd ed : Date) (rows : List ScheduleRow),
      (∀ ls ds, collectPageLinks sd ed rows = .ok (ls, ds) →
        ls = (rows.filterMap (rowLink sd ed)).map Prod.fst ∧
        ds = (rows.filterMap (rowLink sd ed)).map Prod.snd) ∧
      ((∃ r ∈ rows, badCsk r) → collectPageLinks sd ed rows = .error ()) :=
  fun _ _ _ =>
    ⟨fun _ _ h => collectPageLinks_ok_eq h, fun h => collectPageLinks_badCsk h⟩

/-- Witness for the amended C3 at concrete pages: the clean page's list is
exactly its `rowLink` image, and the bad-row page raises. -/
theorem C3_amended_row_contributions_witness :
    (["https://www.basketball-reference.com/boxscores/202110190MIL.html"] : List String) =
      (([fixtureGoodRow].filterMap (rowLink ⟨2021, 10, 1⟩ ⟨2021, 10, 31⟩)).map
        Prod.fst) ∧
    collectPageLinks ⟨2021, 10, 1⟩ ⟨2021, 10, 31⟩ [fixtureBadRow, fixtureGoodRow] =
      .error () :=
  ⟨((C3_amended_row_contributions ⟨2021, 10, 1⟩ ⟨2021, 10, 31⟩ [fixtureGoodRow]).1
      ["https://www.basketball-reference.com/boxscores/202110190MIL.html"]
      ["2021-10-19"] rfl).1,
   (C3_amended_row_contributions ⟨2021, 10, 1⟩ ⟨2021, 10, 31⟩
      [fixtureBadRow, fixtureGoodRow]).2
     ⟨fixtureBadRow, by simp, "notadate", rfl, by decide⟩⟩

/-! ## Claim C5 -/

/-- C5: a month page whose fetch fails (HTTP error or any other
exception) is reported through the shared error policy and contributes
nothing, while the box-link and date arrays are exactly those of the run
without that page — the failure never aborts the loop or changes the
other pages' results. -/
theorem C5_failed_page_isolated :
    ∀ (sd ed : Date) (xs ys : List MonthPage) (p : MonthPage),
      ((∃ st, p.fetch = .httpErr st) ∨ p.fetch = .exn) →
      (boxScoreLoop sd ed (xs ++ p :: ys)).box_link_array =
        (boxScoreLoop sd ed (xs ++ ys)).box_link_array ∧
      (boxScoreLoop sd ed (xs ++ p :: ys)).all_dates =
        (boxScoreLoop sd ed (xs ++ ys)).all_dates ∧
      failureReport p ∈ (boxScoreLoop sd ed (xs ++ p :: ys)).reports := by
  intro sd ed xs ys p hp
  have hg : pageGroup sd ed p = none := by
    rcases hp with ⟨st, hf⟩ | hf
    · simp [pageGroup, hf]
    · simp [pageGroup, hf]
  obtain ⟨ha1, ha2⟩ := @boxScoreLoop_arrays sd ed (xs ++ p :: ys)
  obtain ⟨hb1, hb2⟩ := @boxScoreLoop_arrays sd ed (xs ++ ys)
  have hfm : (xs ++ p :: ys).filterMap (pageGroup sd ed) =
      (xs ++ ys).filterMap (pageGroup sd ed) := by
    simp [List.filterMap_append, List.filterMap_cons_none hg]
  refine ⟨?_, ?_, boxScoreLoop_failure_reported xs ys p hp⟩
  · rw [ha1, hb1, hfm]
  · rw [ha2, hb2, hfm]

/-- Witness for C5: with a 404 December page between two clean pages, the
arrays match the two-page run and the 404 is reported. -/
theorem C5_failed_page_isolated_witness :
    (boxScoreLoop ⟨2021, 10, 1⟩ ⟨2021, 12, 31⟩
        ([fixtureOkPage] ++ fixture404Page :: [fixtureOkPage2])).box_link_array =
      (boxScoreLoop ⟨2021, 10, 1⟩ ⟨2021, 12, 31⟩
        ([fixtureOkPage] ++ [fixtureOkPage2])).box_link_array ∧
    (boxScoreLoop ⟨2021, 10, 1⟩ ⟨2021, 12, 31⟩
        ([fixtureOkPage] ++ fixture404Page :: [fixtureOkPage2])).all_dates =
      (boxScoreLoop ⟨2021, 10, 1⟩ ⟨2021, 12, 31⟩
        ([fixtureOkPage] ++ [fixtureOkPage2])).all_dates ∧
    failureReport fixture404Page ∈
      (boxScoreLoop ⟨2021, 10, 1⟩ ⟨2021, 12, 31⟩
        ([fixtureOkPage] ++ fixture404Page :: [fixtureOkPage2])).reports :=
  C5_failed_page_isolated ⟨2021, 10, 1⟩ ⟨2021, 12, 31⟩ [fixtureOkPage]
    [fixtureOkPage2] fixture404Page (Or.inl ⟨404, rfl⟩)

/-! ## Claim C6 -/

/-- C6: a window whose parsed start date is strictly after its parsed end
date makes `get_box_score_links` raise the invalid-range `ValueError`
before anything is fetched: the result is the error and the event trace is
empty — no network request is issued. -/
theorem C6_inverted_window_no_fetch :
    ∀ (mll : List MonthPage) (s e : String) (sy ey : Int) (sd ed : Date),
      parseDashDate s = some sd → parseDashDate e = some ed →
      ed.key < sd.key →
      (get_box_score_links mll s e sy ey).result =
        .error "Start date cannot be after end date." ∧
      (get_box_score_links mll s e sy ey).events = [] := by
  intro mll s e sy ey sd ed hs he hlt
  unfold get_box_score_links
  rw [hs, he]
  dsimp only
  rw [if_pos hlt]
  exact ⟨rfl, rfl⟩

/-- Witness for C6 at a concrete inverted window. -/
theorem C6_inverted_window_no_fetch_witness :
    (get_box_score_links [fixtureOkPage] "2021-10-20" "2021-10-19" 2021 2022).result =
      .error "Start date cannot be after end date." ∧
    (get_box_score_links [fixtureOkPage] "2021-10-20" "2021-10-19" 2021 2022).events =
      [] :=
  C6_inverted_window_no_fetch [fixtureOkPage] "2021-10-20" "2021-10-19" 2021 2022
    ⟨2021, 10, 20⟩ ⟨2021, 10, 19⟩ (by decide) (by decide) (by decide)

/-! ## Claim C8 -/

/-- C8: on success `get_box_score_links` returns two parallel
sequence-of-sequences of equal outer length whose groups pair up with
equal lengths; no group is empty (a page contributing zero links is
omitted, not represented as an empty group); and the arrays are exactly
the per-page groups of the relevant pages in page order, each group being
the in-order `rowLink` image of its page's rows. -/
theorem C8_parallel_grouped_arrays :
    ∀ (mll : List MonthPage) (s e : String) (sy ey : Int)
      (bs ds : List (List String)) (ev : List Event) (rp : List Report),
      get_box_score_links mll s e sy ey = ⟨.ok (bs, ds), ev, rp⟩ →
      bs.length = ds.length ∧
      (∀ i : Nat, (bs[i]?).map List.length = (ds[i]?).map List.length) ∧
      (∀ g ∈ bs, g ≠ []) ∧ (∀ g ∈ ds, g ≠ []) ∧
      (∃ sd ed, parseDashDate s = some sd ∧ parseDashDate e = some ed ∧
        bs = ((filter_relevant_months mll sd ed sy ey).filterMap
          (pageGroup sd ed)).map Prod.fst ∧
        ds = ((filter_relevant_months mll sd ed sy ey).filterMap
          (pageGroup sd ed)).map Prod.snd ∧
        (∀ (p : MonthPage) (ls' ds' : List String),
          pageGroup sd ed p = some (ls', ds') →
          ∃ rows, p.fetch = .ok rows ∧
            ls' = (rows.filterMap (rowLink sd ed)).map Prod.fst ∧
            ds' = (rows.filterMap (rowLink sd ed)).map Prod.snd)) := by
  intro mll s e sy ey bs ds ev rp h
  unfold get_box_score_links at h
  cases hs : parseDashDate s with
  | none => rw [hs] at h; simp at h
  | some sd =>
    rw [hs] at h
    dsimp only at h
    cases he : parseDashDate e with
    | none => rw [he] at h; simp at h
    | some ed =>
      rw [he] at h
      dsimp only at h
      by_cases hlt : ed.key < sd.key
      · rw [if_pos hlt] at h
        simp at h
      · rw [if_neg hlt] at h
        simp only [BoxLinksRun.mk.injEq, Except.ok.injEq, Prod.mk.injEq] at h
        obtain ⟨⟨hbs, hds⟩, _, _⟩ := h
        obtain ⟨ha1, ha2⟩ :=
          @boxScoreLoop_arrays sd ed (filter_relevant_months mll sd ed sy ey)
        have hbs2 : bs = ((filter_relevant_months mll sd ed sy ey).filterMap
            (pageGroup sd ed)).map Prod.fst := by rw [← hbs, ha1]
        have hds2 : ds = ((filter_relevant_months mll sd ed sy ey).filterMap
            (pageGroup sd ed)).map Prod.snd := by rw [← hds, ha2]
        have hlenpair : ∀ pr ∈ (filter_relevant_months mll sd ed sy ey).filterMap
            (pageGroup sd ed), pr.1.length = pr.2.length ∧ pr.1 ≠ [] := by
          intro pr hpr
          obtain ⟨p, _, hpg⟩ := List.mem_filterMap.mp hpr
          obtain ⟨ls', ds'⟩ := pr
          obtain ⟨rows, _, _, _, hne, hlen⟩ := pageGroup_some_facts hpg
          exact ⟨hlen, hne⟩
        refine ⟨?_, ?_, ?_, ?_, sd, ed, rfl, rfl, hbs2, hds2, ?_⟩
        · rw [hbs2, hds2]; simp
        · intro i
          rw [hbs2, hds2]
          rw [List.getElem?_map, List.getElem?_map]
          cases hgi : ((filter_relevant_months mll sd ed sy ey).filterMap
              (pageGroup sd ed))[i]? with
          | none => rfl
          | some pr =>
            have hmem : pr ∈ (filter_relevant_months mll sd ed sy ey).filterMap
                (pageGroup sd ed) := List.getElem?_mem hgi
            simp only [Option.map_some']
            exact congrArg some (hlenpair pr hmem).1
        · intro g hg
          rw [hbs2] at hg
          obtain ⟨pr, hpr, hpr2⟩ := List.mem_map.mp hg
          rw [← hpr2]
          exact (hlenpair pr hpr).2
        · intro g hg
          rw [hds2] at hg
          obtain ⟨pr, hpr, hpr2⟩ := List.mem_map.mp hg
          rw [← hpr2]
          intro hnil
          have := (hlenpair pr hpr).1
          rw [hnil] at this
          exact (hlenpair pr hpr).2 (List.eq_nil_of_length_eq_zero (by simp [this]))
        · intro p ls' ds' hpg
          obtain ⟨rows, hf, h1, h2, _, _⟩ := pageGroup_some_facts hpg
          exact ⟨rows, hf, h1, h2⟩

/-- Witness for C8 at a concrete two-page run. -/
theorem C8_parallel_grouped_arrays_witness :
    ([["https://www.basketball-reference.com/boxscores/202110190MIL.html"],
      ["https://www.basketball-reference.com/boxscores/202111030BOS.html"]] :
        List (List String)).length =
      ([["2021-10-19"], ["2021-11-03"]] : List (List String)).length :=
  (C8_parallel_grouped_arrays [fixtureOkPage, fixtureOkPage2] "2021-10-01"
    "2021-11-30" 2021 2022 _ _ _ _ rfl).1

/-! ## Claim C9 -/

/-- C9: every pacing sleep of the month-page loop draws from
`random.uniform(0.5, 2)` and every pacing sleep of `extract_player_data`
draws from `random.uniform(3, 7)`, and any duration in the box-score
interval strictly exceeds any duration in the schedule-page interval. -/
theorem C9_pacing_delay_bounds :
    (∀ (sd ed : Date) (pages : List MonthPage) (lo hi : ℚ),
        Event.sleep lo hi ∈ (boxScoreLoop sd ed pages).events →
        lo = month_page_delay.1 ∧ hi = month_page_delay.2) ∧
    (∀ (bl : List (List BoxPage)) (ad : List (List String)) (lo hi : ℚ),
        Event.sleep lo hi ∈ (extract_player_data bl ad).events →
        lo = box_page_delay.1 ∧ hi = box_page_delay.2) ∧
    (∀ x y : ℚ, month_page_delay.1 ≤ x → x ≤ month_page_delay.2 →
        box_page_delay.1 ≤ y → y ≤ box_page_delay.2 → x < y) := by
  refine ⟨fun sd ed pages lo hi h => boxScoreLoop_sleep_bounds pages lo hi h,
    fun bl ad lo hi h => extract_player_data_sleep_bounds bl ad lo hi h, ?_⟩
  intro x y hx1 hx2 hy1 hy2
  simp only [month_page_delay, box_page_delay] at hx1 hx2 hy1 hy2
  linarith

/-- Witness for C9: the sleep emitted for the fixture month page carries
the bounds (1/2, 2), and a schedule delay of 2 is shorter than a box
delay of 3. -/
theorem C9_pacing_delay_bounds_witness :
    ((1 / 2 : ℚ) = month_page_delay.1 ∧ (2 : ℚ) = month_page_delay.2) ∧
    (2 : ℚ) < 3 :=
  ⟨C9_pacing_delay_bounds.1 ⟨2021, 10, 1⟩ ⟨2021, 10, 31⟩ [fixtureOkPage] (1 / 2) 2
      (show Event.sleep (1 / 2) 2 ∈
          [Event.fetch fixtureOkPage.url, Event.sleep (1 / 2) 2] from
        List.mem_cons_of_mem _ (List.mem_cons_self _ _)),
   C9_pacing_delay_bounds.2.2 2 3 (by norm_num [month_page_delay])
     (by norm_num [month_page_delay]) (by norm_num [box_page_delay])
     (by norm_num [box_page_delay])⟩

/-! ## Claim C4 -/

/-- Counterexample to C4: `"2021-24"` matches the
`<4-digit-year>-<2-digit-suffix>` pattern, yet `get_month_links` resolves
its end year by splicing — `end_year = 2024 ≠ 2021 + 1` — and fetches
`NBA_2024_games.html`. -/
theorem C4_counterexample :
    specSeasonFormat "2021-24" = true ∧
    get_month_links "2021-24" =
      .fetches "https://www.basketball-reference.com/leagues/NBA_2024_games.html"
        2021 2024 ∧
    (2024 : Int) ≠ 2021 + 1 :=
  ⟨by decide, by decide, by decide⟩

/-- C4 as amended: `end_year = start_year + 1` holds exactly on the
labels whose 2-digit suffix is the last two digits of `start_year + 1` —
for every 4-digit `start_year` (the `"00"` century-rollover suffix
included), `get_month_links` on such a label proceeds to fetch the
schedule URL built from `start_year + 1`.  Other pattern-matching labels
are spliced instead (see the counterexample). -/
theorem C4_amended_consecutive_labels :
    ∀ sy : Nat, 1000 ≤ sy → sy ≤ 9998 →
      get_month_links (consecutiveSeasonLabel sy) =
        .fetches (startUrl ((sy : Int) + 1)) (sy : Int) ((sy : Int) + 1) := by
  intro sy hlo hhi
  have b1 : sy / 1000 % 10 < 10 := Nat.mod_lt _ (by norm_num)
  have b2 : sy / 100 % 10 < 10 := Nat.mod_lt _ (by norm_num)
  have b3 : sy / 10 % 10 < 10 := Nat.mod_lt _ (by norm_num)
  have b4 : sy % 10 < 10 := Nat.mod_lt _ (by norm_num)
  have b5 : (sy + 1) / 10 % 10 < 10 := Nat.mod_lt _ (by norm_num)
  have b6 : (sy + 1) % 10 < 10 := Nat.mod_lt _ (by norm_num)
  have hdata : (consecutiveSeasonLabel sy).data =
      [digitChar (sy / 1000 % 10), digitChar (sy / 100 % 10),
       digitChar (sy / 10 % 10), digitChar (sy % 10), '-',
       digitChar ((sy + 1) / 10 % 10), digitChar ((sy + 1) % 10)] := rfl
  have hsplit : splitOnPat ['-'] (consecutiveSeasonLabel sy).data =
      [[digitChar (sy / 1000 % 10), digitChar (sy / 100 % 10),
        digitChar (sy / 10 % 10), digitChar (sy % 10)],
       [digitChar ((sy + 1) / 10 % 10), digitChar ((sy + 1) % 10)]] := by
    rw [hdata]
    exact splitOnPat_dash_label _ _ _ _ _ _ (isD_digitChar b1) (isD_digitChar b2)
      (isD_digitChar b3) (isD_digitChar b4) (isD_digitChar b5) (isD_digitChar b6)
  have hvalue : sy / 1000 % 10 * 1000 + sy / 100 % 10 * 100 + sy / 10 % 10 * 10 +
      sy % 10 = sy := by omega
  have hparse : pyIntChars [digitChar (sy / 1000 % 10), digitChar (sy / 100 % 10),
      digitChar (sy / 10 % 10), digitChar (sy % 10)] = some ((sy : Nat) : Int) := by
    rw [pyIntChars_fourDigits _ _ _ _ b1 b2 b3 b4, hvalue]
  have hss : seasonSplit (consecutiveSeasonLabel sy) =
      some ((sy : Int),
        String.mk [digitChar ((sy + 1) / 10 % 10), digitChar ((sy + 1) % 10)]) := by
    unfold seasonSplit
    rw [hsplit]
    dsimp only
    rw [hparse]
    dsimp only
    rw [if_pos (by simp [isD_digitChar b5, isD_digitChar b6])]
  have hey : endYearFull (sy : Int)
      (String.mk [digitChar ((sy + 1) / 10 % 10), digitChar ((sy + 1) % 10)]) =
      (sy : Int) + 1 := by
    by_cases hz : (sy + 1) % 100 = 0
    · have z1 : (sy + 1) / 10 % 10 = 0 := by omega
      have z2 : (sy + 1) % 10 = 0 := by omega
      unfold endYearFull
      rw [if_pos (by rw [z1, z2]; decide)]
    · have hsuf_ne : String.mk [digitChar ((sy + 1) / 10 % 10),
          digitChar ((sy + 1) % 10)] ≠ "00" := by
        intro he
        have hd : [digitChar ((sy + 1) / 10 % 10), digitChar ((sy + 1) % 10)] =
            ['0', '0'] := congrArg String.data he
        simp only [List.cons.injEq, and_true] at hd
        have v1 : (sy + 1) / 10 % 10 = 0 := (digitChar_eq_zero_iff b5).mp hd.1
        have v2 : (sy + 1) % 10 = 0 := (digitChar_eq_zero_iff b6).mp hd.2
        omega
      have bA : sy / 1000 < 10 := by omega
      unfold endYearFull
      rw [if_neg hsuf_ne, intToChars_natCast,
        natToChars_fourDigits sy hlo (by omega)]
      rw [show List.take 2 [digitChar (sy / 1000), digitChar (sy / 100 % 10),
        digitChar (sy / 10 % 10), digitChar (sy % 10)] =
        [digitChar (sy / 1000), digitChar (sy / 100 % 10)] from rfl]
      rw [show [digitChar (sy / 1000), digitChar (sy / 100 % 10)] ++
        (String.mk [digitChar ((sy + 1) / 10 % 10),
          digitChar ((sy + 1) % 10)]).data =
        [digitChar (sy / 1000), digitChar (sy / 100 % 10),
         digitChar ((sy + 1) / 10 % 10), digitChar ((sy + 1) % 10)] from rfl]
      rw [pyIntChars_fourDigits _ _ _ _ bA b2 b5 b6]
      simp only [Option.getD_some]
      have hv : sy / 1000 * 1000 + sy / 100 % 10 * 100 + (sy + 1) / 10 % 10 * 10 +
          (sy + 1) % 10 = sy + 1 := by omega
      rw [hv]
      push_cast
      ring
  unfold get_month_links
  rw [hss]
  dsimp only
  rw [hey]

/-- Witness for the amended C4: the spec's scenario label `"2021-22"`
resolves to `start_year = 2021`, `end_year = 2022 = 2021 + 1`, fetching
the schedule-index URL ending in `NBA_2022_games.html`. -/
theorem C4_amended_consecutive_labels_witness :
    consecutiveSeasonLabel 2021 = "2021-22" ∧
    get_month_links "2021-22" =
      .fetches "https://www.basketball-reference.com/leagues/NBA_2022_games.html"
        2021 2022 := by
  constructor
  · decide
  · have h := C4_amended_consecutive_labels 2021 (by norm_num) (by norm_num)
    rw [show consecutiveSeasonLabel 2021 = "2021-22" from by decide] at h
    rw [h]
    decide

/-! ## Claim C7 -/

/-- Counterexample to C7: `"21-22"` does not match the
`<4-digit-year>-<2-digit-suffix>` pattern, yet `get_month_links` does not
fail — it resolves the season to `(21, 2122)` and proceeds to issue the
network request for `NBA_2122_games.html`. -/
theorem C7_counterexample :
    specSeasonFormat "21-22" = false ∧
    get_month_links "21-22" =
      .fetches "https://www.basketball-reference.com/leagues/NBA_2122_games.html"
        21 2122 :=
  ⟨by decide, by decide⟩

/-- C7 as amended: `get_month_links` validates only that the label splits
on `'-'` into an `int()`-parseable first part and a two-digit numeric
suffix.  A label failing that looser check makes it print a diagnostic
and return `(None, None)` — no exception is raised — before any network
request; every label matching the spec's 4-digit pattern passes the check
and proceeds to fetch (and so do some non-matching labels, see the
counterexample). -/
theorem C7_amended_lenient_validation :
    ∀ season : String,
      (seasonSplit season = none → get_month_links season = .invalidSeason) ∧
      (specSeasonFormat season = true →
        ∃ url sy ey, get_month_links season = .fetches url sy ey) := by
  intro season
  constructor
  · intro h
    unfold get_month_links
    rw [h]
  · intro h
    unfold specSeasonFormat at h
    unfold get_month_links seasonSplit
    cases hsp : splitOnPat ['-'] season.data with
    | nil => rw [hsp] at h; simp at h
    | cons a tl =>
      cases tl with
      | nil => rw [hsp] at h; simp at h
      | cons b tl2 =>
        cases tl2 with
        | cons c tl3 => rw [hsp] at h; simp at h
        | nil =>
          rw [hsp] at h
          dsimp only at h
          simp only [Bool.and_eq_true, decide_eq_true_eq] at h
          obtain ⟨⟨⟨ha4, haD⟩, hb2⟩, hbD⟩ := h
          have hane : a ≠ [] := by
            intro he
            rw [he] at ha4
            simp at ha4
          obtain ⟨n, hn⟩ := pyIntChars_digits hane
            (fun c hc => List.all_eq_true.mp haD c hc)
          dsimp only
          rw [hn]
          dsimp only
          rw [if_pos (by simp [hb2, hbD])]
          exact ⟨_, _, _, rfl⟩

/-- Witness for the amended C7: a malformed label quietly returns the
none-pair, while the well-formed `"2021-22"` proceeds to fetch. -/
theorem C7_amended_lenient_validation_witness :
    get_month_links "bad" = .invalidSeason ∧
    ∃ url sy ey, get_month_links "2021-22" = .fetches url sy ey :=
  ⟨(C7_amended_lenient_validation "bad").1 (by decide),
   (C7_amended_lenient_validation "2021-22").2 (by decide)⟩

end SwishPredict
